import Mathlib

/-!
Shallow embedding of `src/code/main.py` (pyvis-multigraph): the pandas-based
edge/node transformers `transform_edges`, `transform_nodes` and the assembler
`nx_from_pandas`, together with the fragments of pandas and networkx behaviour
they rely on (column selection, column assignment, `rename`, `set_index`,
`to_dict(orient=index)`, `from_pandas_edgelist`, `set_node_attributes`).

Cell values are modelled by `Val` (strings, integers, and `na` for pandas NaN);
a dataframe is an ordered list of named columns; Python exceptions become the
`TError` type.  Both transformers return, besides their result, the final state
of the caller's dataframe object, so that mutation of the argument (which the
Python code performs through the `edges_df['color'] = ...` assignment) is
observable in the model.
-/

deriving instance DecidableEq for Except

/-- Cell values of a dataframe: strings, integers, or missing (pandas NaN). -/
inductive Val where
  | str : String → Val
  | int : Int → Val
  | na : Val
deriving DecidableEq, Repr

/-- Errors raised by the Python code.
`columnNotFound c` models the `AssertionError` with message
`Column "c" not found in ...`; `invalidArgumentCombination` models the
`TypeError` raised when exactly one of `color`/`color_map` is given;
`invalidArgumentType` models the `isinstance` assertion errors;
`keyError k` models a raw pandas `KeyError` during column selection
(`k = none` encodes Python's `None` used as a key); `valueError` models
pandas `ValueError`s from `set_index` / `to_dict(orient=index)`. -/
inductive TError where
  | columnNotFound : String → TError
  | invalidArgumentCombination : TError
  | invalidArgumentType : TError
  | keyError : Option String → TError
  | valueError : TError
deriving DecidableEq, Repr

/-- A pandas dataframe: an ordered list of columns, each a name paired with
its (row-ordered) list of values.  Row `j` of the frame consists of entry `j`
of every column. -/
structure DataFrame where
  cols : List (String × List Val)
deriving DecidableEq, Repr

/-- The column names of a dataframe, in order (`df.columns`). -/
def columnNames (df : DataFrame) : List String :=
  df.cols.map Prod.fst

/-- Values of the (first) column named `c` (`df[c]` for a unique label). -/
def getCol (df : DataFrame) (c : String) : List Val :=
  match df.cols.find? (fun p => decide (p.1 = c)) with
  | some p => p.2
  | none => []

/-- Column assignment `df[c] = vs`: overwrites the values of every column
labelled `c`, or appends a new column at the end if the label is absent. -/
def setCol (df : DataFrame) (c : String) (vs : List Val) : DataFrame :=
  if c ∈ columnNames df then
    ⟨df.cols.map (fun p => if p.1 = c then (c, vs) else p)⟩
  else
    ⟨df.cols ++ [(c, vs)]⟩

/-- `df.rename(columns={old: nw})`: every column labelled `old` is relabelled
`nw`; values and order are untouched.  Returns a new frame. -/
def renameCol (df : DataFrame) (old nw : String) : DataFrame :=
  ⟨df.cols.map (fun p => if p.1 = old then (nw, p.2) else p)⟩

/-- Column selection `df[cs]` where `cs` is a Python list that may contain
`None` (modelled by `none`).  Any entry that is `None` or names no column
raises a `KeyError`; otherwise the result holds, for each requested label in
order, every column of `df` carrying that label. -/
def selectCols (df : DataFrame) : List (Option String) → Except TError DataFrame
  | [] => .ok ⟨[]⟩
  | none :: _ => .error (.keyError none)
  | some s :: rest =>
    if s ∈ columnNames df then
      match selectCols df rest with
      | .ok r => .ok ⟨df.cols.filter (fun p => decide (p.1 = s)) ++ r.cols⟩
      | .error e => .error e
    else .error (.keyError (some s))

/-- The column-existence assertion loop shared by both transformers:
`for col in cols_usr: assert col in df.columns, 'Column "{}" not found...'`.
Fails on the first missing column, naming it. -/
def checkCols (df : DataFrame) : List String → Except TError Unit
  | [] => .ok ()
  | c :: rest =>
    if c ∈ columnNames df then checkCols df rest
    else .error (.columnNotFound c)

/-- A Python color map: a `dict` from raw cell values to color values. -/
abbrev ColorMap := List (Val × Val)

/-- `series.map(color_map)`: look a value up in the dict; keys absent from the
map yield NaN rather than an error. -/
def mapLookup (m : ColorMap) (v : Val) : Val :=
  match m.find? (fun p => decide (p.1 = v)) with
  | some p => p.2
  | none => Val.na

/-- `series.astype(str)` on one cell. -/
def astypeStr : Val → Val
  | .str s => .str s
  | .int n => .str (toString n)
  | .na => .str "nan"

/-- An attribute record: a Python dict from attribute name to value, in
insertion order. -/
abbrev AttrRec := List (String × Val)

/-- Python `d[k] = v`: overwrite in place if the key exists, else append. -/
def dictInsert (d : AttrRec) (k : String) (v : Val) : AttrRec :=
  if k ∈ d.map Prod.fst then
    d.map (fun p => if p.1 = k then (k, v) else p)
  else d ++ [(k, v)]

/-- Python `d1.update(d2)` (returning the updated dict). -/
def dictUpdate (d1 d2 : AttrRec) : AttrRec :=
  d2.foldl (fun d p => dictInsert d p.1 p.2) d1

/-- Building a Python dict from a key/value sequence by successive
insertion: keys keep the position of their first occurrence, and a repeated
key keeps the last value. -/
def toDict (l : List (String × Val)) : AttrRec :=
  l.foldl (fun d p => dictInsert d p.1 p.2) []

/-- The mapping produced by `transform_nodes`: node identifier value to
attribute record. -/
abbrev NodeMap := List (Val × AttrRec)

/-- `df.set_index(i).to_dict(orient='index')` as used at the end of
`transform_nodes`.  `i = none` models `set_index(None)` being reached with a
Python `None` (never reached in the source, since selection fails first).
`set_index` requires an unambiguous key column, and `to_dict(orient='index')`
raises `ValueError` when the resulting index is not unique. -/
def setIndexToDict (df : DataFrame) (i : Option String) : Except TError NodeMap :=
  match i with
  | none => .error (.keyError none)
  | some s =>
    match df.cols.filter (fun p => decide (p.1 = s)) with
    | [keycol] =>
      let rest := df.cols.filter (fun p => decide (p.1 ≠ s))
      if keycol.2.Nodup then
        .ok ((List.range keycol.2.length).map (fun j =>
          (keycol.2.getD j Val.na,
           toDict (rest.map (fun p => (p.1, p.2.getD j Val.na))))))
      else .error .valueError
    | _ => .error .valueError

/-- Embedding of `transform_edges` (src/code/main.py, lines 25-86).  The first
component is the returned frame (or the raised error); the second component is
the state of the caller's `edges_df` object after the call: the Python code
assigns `edges_df['color'] = edges_df[color].map(color_map)` directly on its
argument (no copy), while `rename` rebinds only the local name. -/
def transform_edges (edges_df : DataFrame) (source target : String)
    (color : Option String) (color_map : Option ColorMap)
    (hover : Option String) : Except TError DataFrame × DataFrame :=
  let cols_usr : List String :=
    ([some source, some target, color, hover]).filterMap (fun x => x)
  match checkCols edges_df cols_usr with
  | .error e => (.error e, edges_df)
  | .ok _ =>
    match color, color_map with
    | some c, some cm =>
      let df1 := setCol edges_df "color" ((getCol edges_df c).map (mapLookup cm))
      match hover with
      | some h =>
        (selectCols (renameCol df1 h "title")
          [some source, some target, some "color", some "title"], df1)
      | none =>
        (selectCols df1 [some source, some target, some "color"], df1)
    | some _, none => (.error .invalidArgumentCombination, edges_df)
    | none, some _ => (.error .invalidArgumentCombination, edges_df)
    | none, none =>
      match hover with
      | some h =>
        (selectCols (renameCol edges_df h "title")
          [some source, some target, some "title"], edges_df)
      | none =>
        (selectCols edges_df [some source, some target], edges_df)

/-- Embedding of `transform_nodes` (src/code/main.py, lines 90-165).  The
`id` parameter is an `Option` because `nx_from_pandas` passes Python `None`
for it when `nodes_id` is omitted.  The function deep-copies its argument
(`temp = nodes_df.copy(deep=True)`) before any assignment, so the second
component — the caller's `nodes_df` after the call — is always the original
frame. -/
def transform_nodes (nodes_df : DataFrame) (id : Option String)
    (label : Option String) (color : Option String)
    (color_map : Option ColorMap) (hover : Option String) :
    Except TError NodeMap × DataFrame :=
  let cols_usr : List String := ([id, label, color, hover]).filterMap (fun x => x)
  match checkCols nodes_df cols_usr with
  | .error e => (.error e, nodes_df)
  | .ok _ =>
    let temp := nodes_df
    let temp1 :=
      match label with
      | some l => setCol temp "label" ((getCol temp l).map astypeStr)
      | none => temp
    let colorStep : Except TError DataFrame :=
      match color, color_map with
      | some c, some cm =>
        .ok (setCol temp1 "color" ((getCol temp1 c).map (mapLookup cm)))
      | some _, none => .error .invalidArgumentCombination
      | none, some _ => .error .invalidArgumentCombination
      | none, none => .ok temp1
    match colorStep with
    | .error e => (.error e, nodes_df)
    | .ok temp2 =>
      let temp3 :=
        match hover with
        | some h => renameCol temp2 h "title"
        | none => temp2
      let cols : List (Option String) :=
        [id] ++ (match label with | some _ => [some "label"] | none => [])
             ++ (match color, color_map with
                 | some _, some _ => [some "color"] | _, _ => [])
             ++ (match hover with | some _ => [some "title"] | none => [])
      match selectCols temp3 cols with
      | .error e => (.error e, nodes_df)
      | .ok sel => (setIndexToDict sel id, nodes_df)

/-- The attribute-column names that `transform_nodes` appends to its `cols`
selection list (everything after the `id` entry), as a function of which
optional parameters were supplied: `label`, then `color` (only when both
`color` and `color_map` are given, the surviving case), then `title` (for
`hover`). -/
def nodeAttrCols (label color : Option String) (color_map : Option ColorMap)
    (hover : Option String) : List String :=
  (match label with | some _ => ["label"] | none => []) ++
  (match color, color_map with | some _, some _ => ["color"] | _, _ => []) ++
  (match hover with | some _ => ["title"] | none => [])

/-- A networkx `Graph`: nodes (in insertion order, each with its attribute
dict) and undirected edges (in insertion order, each with its attribute
dict). -/
structure Graph where
  nodes : List (Val × AttrRec)
  edges : List (Val × Val × AttrRec)
deriving DecidableEq, Repr

/-- The node identifiers of a graph, in insertion order. -/
def nodeKeys (g : Graph) : List Val :=
  g.nodes.map Prod.fst

/-- `G.add_node(n)`: a no-op when the node exists, else append it bare. -/
def addNode (g : Graph) (n : Val) : Graph :=
  if n ∈ nodeKeys g then g else { g with nodes := g.nodes ++ [(n, [])] }

/-- Updating the (undirected) edge list with the pair `u, v` and attribute
dict `d`: if an edge between `u` and `v` exists in either orientation its
dict is updated, otherwise the new edge is appended. -/
def updateEdgeList : List (Val × Val × AttrRec) → Val → Val → AttrRec →
    List (Val × Val × AttrRec)
  | [], u, v, d => [(u, v, d)]
  | e :: rest, u, v, d =>
    if (e.1 = u ∧ e.2.1 = v) ∨ (e.1 = v ∧ e.2.1 = u) then
      (e.1, e.2.1, dictUpdate e.2.2 d) :: rest
    else e :: updateEdgeList rest u v d

/-- `G.add_edge(u, v, **d)` on an undirected `Graph`. -/
def addEdge (g : Graph) (u v : Val) (d : AttrRec) : Graph :=
  let g1 := addNode (addNode g u) v
  { g1 with edges := updateEdgeList g1.edges u v d }

/-- The value of column `c` in row `r` of a dataframe (first matching label;
missing entries give NaN). -/
def rowLookup (r : List (String × Val)) (c : String) : Val :=
  match r.find? (fun p => decide (p.1 = c)) with
  | some p => p.2
  | none => Val.na

/-- Row `j` of a dataframe. -/
def dfRow (df : DataFrame) (j : Nat) : List (String × Val) :=
  df.cols.map (fun p => (p.1, p.2.getD j Val.na))

/-- `networkx.from_pandas_edgelist(df, source, target, edge_attr)`: starting
from the empty graph, every row adds (or updates) the edge between its
`source` and `target` values, with the row's `edge_attr` columns as the
attribute dict.  An empty `edge_attr` list models `edge_attr=None`. -/
def from_pandas_edgelist (df : DataFrame) (source target : String)
    (edge_attr : List String) : Graph :=
  (List.range (getCol df source).length).foldl
    (fun g j =>
      let r := dfRow df j
      addEdge g (rowLookup r source) (rowLookup r target)
        (toDict (edge_attr.map (fun a => (a, rowLookup r a)))))
    ⟨[], []⟩

/-- `networkx.set_node_attributes(G, values)` with a dict of dicts: each
entry updates the attribute dict of the matching graph node; identifiers
absent from the graph are silently skipped; no node is ever added. -/
def set_node_attributes (g : Graph) : NodeMap → Graph
  | [] => g
  | (n, d) :: rest =>
    set_node_attributes
      (if n ∈ nodeKeys g then
        { g with nodes := g.nodes.map (fun p => if p.1 = n then (p.1, dictUpdate p.2 d) else p) }
      else g) rest

/-- Embedding of `nx_from_pandas` (src/code/main.py, lines 169-277).  Note
two quirks of the source, reproduced faithfully: when `nodes_df` is supplied,
`transform_nodes` is called twice (once with the result discarded, at line
239, and once inside `set_node_attributes`, at line 266); and the edge
attribute list is computed by excluding the literal column names `'src'` and
`'dst'` (line 250) rather than `edges_source`/`edges_target`.  An empty
attribute list is passed as `edge_attr=None`, which attaches no attributes,
exactly as the empty list does here. -/
def nx_from_pandas (edges_df : DataFrame) (edges_source edges_target : String)
    (edges_color : Option String) (edges_color_map : Option ColorMap)
    (edges_hover : Option String) (nodes_df : Option DataFrame)
    (nodes_id nodes_label nodes_color : Option String)
    (nodes_color_map : Option ColorMap) (nodes_hover : Option String) :
    Except TError Graph :=
  match (transform_edges edges_df edges_source edges_target
          edges_color edges_color_map edges_hover).1 with
  | .error e => .error e
  | .ok te =>
    match nodes_df with
    | some ndf =>
      match (transform_nodes ndf nodes_id nodes_label nodes_color
              nodes_color_map nodes_hover).1 with
      | .error e => .error e
      | .ok _ =>
        let edge_attr :=
          (columnNames te).filter (fun c => decide (c ∉ ["src", "dst"]))
        let g := from_pandas_edgelist te edges_source edges_target edge_attr
        match (transform_nodes ndf nodes_id nodes_label nodes_color
                nodes_color_map nodes_hover).1 with
        | .error e => .error e
        | .ok nm => .ok (set_node_attributes g nm)
    | none =>
      let edge_attr :=
        (columnNames te).filter (fun c => decide (c ∉ ["src", "dst"]))
      .ok (from_pandas_edgelist te edges_source edges_target edge_attr)

/-! ### General lemmas about the embedded operations -/

theorem transform_nodes_default_id (ndf : DataFrame) :
    transform_nodes ndf none none none none none = (.error (.keyError none), ndf) := rfl

theorem checkCols_error_spec (df : DataFrame) (cs : List String) (e : TError)
    (h : checkCols df cs = .error e) :
    ∃ c, e = .columnNotFound c ∧ c ∈ cs ∧ c ∉ columnNames df := by
  induction cs with
  | nil => simp [checkCols] at h
  | cons c rest ih =>
    by_cases hc : c ∈ columnNames df
    · simp only [checkCols, if_pos hc] at h
      obtain ⟨c', h1, h2, h3⟩ := ih h
      exact ⟨c', h1, List.mem_cons_of_mem _ h2, h3⟩
    · simp only [checkCols, if_neg hc, Except.error.injEq] at h
      exact ⟨c, h.symm, List.mem_cons_self _ _, hc⟩

theorem checkCols_error_of_missing (df : DataFrame) (cs : List String)
    (h : ∃ c ∈ cs, c ∉ columnNames df) :
    ∃ e, checkCols df cs = .error e := by
  induction cs with
  | nil => simp at h
  | cons c rest ih =>
    by_cases hc : c ∈ columnNames df
    · obtain ⟨c', hc', hmiss⟩ := h
      rcases List.mem_cons.mp hc' with rfl | hmem
      · exact absurd hc hmiss
      · obtain ⟨e, he⟩ := ih ⟨c', hmem, hmiss⟩
        exact ⟨e, by simp [checkCols, if_pos hc, he]⟩
    · exact ⟨.columnNotFound c, by simp [checkCols, if_neg hc]⟩

theorem transform_edges_checkCols_error (edf : DataFrame) (s t : String)
    (c : Option String) (cm : Option ColorMap) (hv : Option String) (e : TError)
    (h : checkCols edf (([some s, some t, c, hv]).filterMap (fun x => x)) = .error e) :
    transform_edges edf s t c cm hv = (.error e, edf) := by
  simp only [transform_edges]
  rw [h]

theorem transform_nodes_checkCols_error (ndf : DataFrame) (i l c : Option String)
    (cm : Option ColorMap) (hv : Option String) (e : TError)
    (h : checkCols ndf (([i, l, c, hv]).filterMap (fun x => x)) = .error e) :
    transform_nodes ndf i l c cm hv = (.error e, ndf) := by
  simp only [transform_nodes]
  rw [h]

/-! ### Claim theorems -/

/-- C1 (code bug evaluation): for the one-row edge table with columns
`s`, `t`, `w`, source column `s` and target column `t` and no styling
options, the assembled graph's single edge carries the attributes
`s = 0` and `t = 1` — the endpoint columns themselves — instead of the
attributes promised by the claim (exactly the non-source/target columns of
the transformed edge table, here none).  This is caused by line 250 of
src/code/main.py, which excludes the literal names `'src'`/`'dst'` from the
attribute list rather than `edges_source`/`edges_target`. -/
theorem C1_hardcoded_src_dst_eval :
    nx_from_pandas ⟨[("s", [.int 0]), ("t", [.int 1]), ("w", [.int 5])]⟩
      "s" "t" none none none none none none none none none =
    .ok ⟨[(.int 0, []), (.int 1, [])],
         [(.int 0, .int 1, [("s", .int 0), ("t", .int 1)])]⟩ := by
  decide

/-- C2 (counterexample): `transform_edges` does mutate the caller's table.
With `color` and `color_map` supplied, the caller's `edges_df` object ends
the call with an extra `color` column it did not have before. -/
theorem C2_counterexample :
    (transform_edges ⟨[("a", [.str "A"]), ("b", [.str "B"]), ("c", [.str "x"])]⟩
      "a" "b" (some "c") (some [(.str "x", .str "red")]) none).2 ≠
    ⟨[("a", [.str "A"]), ("b", [.str "B"]), ("c", [.str "x"])]⟩ := by
  decide

/-- C2 (amended): `transform_nodes` never mutates the caller's table, and
`transform_edges` leaves the caller's table unchanged whenever `color` or
`color_map` is absent; it mutates the caller's table only when both are
supplied (the counterexample exhibits that case). -/
theorem C2_no_mutation_amended :
    (∀ (ndf : DataFrame) (i l c : Option String) (cm : Option ColorMap)
      (hv : Option String), (transform_nodes ndf i l c cm hv).2 = ndf) ∧
    (∀ (edf : DataFrame) (s t : String) (cm : Option ColorMap) (hv : Option String),
      (transform_edges edf s t none cm hv).2 = edf) ∧
    (∀ (edf : DataFrame) (s t : String) (c : Option String) (hv : Option String),
      (transform_edges edf s t c none hv).2 = edf) := by
  refine ⟨?_, ?_, ?_⟩
  · intro ndf i l c cm hv
    simp only [transform_nodes]
    rcases checkCols ndf (([i, l, c, hv]).filterMap (fun x => x)) with e | u
    · rfl
    · rcases c with _ | c <;> rcases cm with _ | cm <;> rcases hv with _ | hv <;>
        simp only [] <;> split <;> rfl
  · intro edf s t cm hv
    simp only [transform_edges]
    rcases checkCols edf (([some s, some t, none, hv]).filterMap (fun x => x)) with e | u
    · rfl
    · rcases cm with _ | cm <;> rcases hv with _ | hv <;> rfl
  · intro edf s t c hv
    simp only [transform_edges]
    rcases checkCols edf (([some s, some t, c, hv]).filterMap (fun x => x)) with e | u
    · rfl
    · rcases c with _ | c <;> rcases hv with _ | hv <;> rfl

/-- C3 (counterexample): supplying `color` without `color_map` does not
always raise `InvalidArgumentCombination`.  When the supplied `color` names
a column absent from the table, the column-existence assertion fires first
and the call raises the "column not found" error instead, so the table
contents do matter. -/
theorem C3_counterexample :
    (transform_edges ⟨[("a", [.str "A"]), ("b", [.str "B"])]⟩
      "a" "b" (some "zzz") none none).1 = .error (.columnNotFound "zzz") ∧
    (transform_edges ⟨[("a", [.str "A"]), ("b", [.str "B"])]⟩
      "a" "b" (some "zzz") none none).1 ≠ .error .invalidArgumentCombination := by
  constructor <;> decide

/-- C3 (amended): when exactly one of `color`/`color_map` is supplied and all
supplied column names pass the column-existence assertions, both transformers
raise `InvalidArgumentCombination`; if a supplied column name is absent, the
"column not found" assertion fires first instead. -/
theorem C3_invalid_combination_amended (df : DataFrame) (s t : String) (hv : Option String) :
    (∀ c : String,
      checkCols df (([some s, some t, some c, hv]).filterMap (fun x => x)) = .ok () →
      (transform_edges df s t (some c) none hv).1 = .error .invalidArgumentCombination) ∧
    (∀ cm : ColorMap,
      checkCols df (([some s, some t, none, hv]).filterMap (fun x => x)) = .ok () →
      (transform_edges df s t none (some cm) hv).1 = .error .invalidArgumentCombination) ∧
    (∀ (i l : Option String) (c : String),
      checkCols df (([i, l, some c, hv]).filterMap (fun x => x)) = .ok () →
      (transform_nodes df i l (some c) none hv).1 = .error .invalidArgumentCombination) ∧
    (∀ (i l : Option String) (cm : ColorMap),
      checkCols df (([i, l, none, hv]).filterMap (fun x => x)) = .ok () →
      (transform_nodes df i l none (some cm) hv).1 = .error .invalidArgumentCombination) := by
  refine ⟨?_, ?_, ?_, ?_⟩
  · intro c hc
    simp only [transform_edges]
    rw [hc]
  · intro cm hc
    simp only [transform_edges]
    rw [hc]
  · intro i l c hc
    simp only [transform_nodes]
    rw [hc]
  · intro i l cm hc
    simp only [transform_nodes]
    rw [hc]

/-- C4: each supplied column-name parameter is validated against the table's
columns before any other use. -/
theorem C4_column_validation :
    (∀ (df : DataFrame) (cs : List String) (e : TError), checkCols df cs = .error e →
      ∃ c, e = .columnNotFound c ∧ c ∈ cs ∧ c ∉ columnNames df) ∧
    (∀ (df : DataFrame) (cs : List String), (∃ c ∈ cs, c ∉ columnNames df) →
      ∃ e, checkCols df cs = .error e) ∧
    (∀ (edf : DataFrame) (s t : String) (c : Option String) (cm : Option ColorMap)
      (hv : Option String) (e : TError),
      checkCols edf (([some s, some t, c, hv]).filterMap (fun x => x)) = .error e →
      transform_edges edf s t c cm hv = (.error e, edf)) ∧
    (∀ (ndf : DataFrame) (i l c : Option String) (cm : Option ColorMap)
      (hv : Option String) (e : TError),
      checkCols ndf (([i, l, c, hv]).filterMap (fun x => x)) = .error e →
      transform_nodes ndf i l c cm hv = (.error e, ndf)) :=
  ⟨checkCols_error_spec, checkCols_error_of_missing,
   transform_edges_checkCols_error, transform_nodes_checkCols_error⟩

theorem C4_witness :
    (∃ c, TError.columnNotFound "zzz" = TError.columnNotFound c ∧ c ∈ ["zzz"] ∧
      c ∉ columnNames ⟨[("a", [Val.str "A"])]⟩) ∧
    (∃ e, checkCols ⟨[("a", [Val.str "A"])]⟩ ["zzz"] = .error e) ∧
    transform_edges ⟨[("a", [Val.str "A"]), ("b", [Val.str "B"])]⟩ "a" "b"
      (some "zzz") none none =
      (.error (.columnNotFound "zzz"), ⟨[("a", [Val.str "A"]), ("b", [Val.str "B"])]⟩) ∧
    transform_nodes ⟨[("a", [Val.str "A"])]⟩ (some "i") none none none none =
      (.error (.columnNotFound "i"), ⟨[("a", [Val.str "A"])]⟩) :=
  ⟨C4_column_validation.1 ⟨[("a", [Val.str "A"])]⟩ ["zzz"] _ (by decide),
   C4_column_validation.2.1 ⟨[("a", [Val.str "A"])]⟩ ["zzz"] ⟨"zzz", by decide, by decide⟩,
   C4_column_validation.2.2.1 _ "a" "b" (some "zzz") none none _ (by decide),
   C4_column_validation.2.2.2 _ (some "i") none none none none _ (by decide)⟩

/-- C5: a two-column edge table with no styling options is returned exactly. -/
theorem C5_no_styling_identity (a b : String) (va vb : List Val) (hab : a ≠ b) :
    transform_edges ⟨[(a, va), (b, vb)]⟩ a b none none none =
      (.ok ⟨[(a, va), (b, vb)]⟩, ⟨[(a, va), (b, vb)]⟩) := by
  simp [transform_edges, checkCols, selectCols, columnNames, hab, Ne.symm hab, List.filter]

theorem C5_witness :
    transform_edges ⟨[("a", [Val.str "A"]), ("b", [Val.str "B"])]⟩ "a" "b" none none none =
      (.ok ⟨[("a", [Val.str "A"]), ("b", [Val.str "B"])]⟩,
       ⟨[("a", [Val.str "A"]), ("b", [Val.str "B"])]⟩) :=
  C5_no_styling_identity "a" "b" [Val.str "A"] [Val.str "B"] (by decide)

/-- C10: nodes_df supplied with nodes_id at its default. -/
theorem C10_default_nodes_id (edf : DataFrame) (s t : String) (ndf te : DataFrame)
    (hok : (transform_edges edf s t none none none).1 = .ok te) :
    nx_from_pandas edf s t none none none (some ndf) none none none none none =
      .error (.keyError none) ∧
    (∀ c, TError.keyError none ≠ TError.columnNotFound c) ∧
    TError.keyError none ≠ TError.invalidArgumentCombination ∧
    TError.keyError none ≠ TError.invalidArgumentType := by
  refine ⟨?_, by intro c; simp, by simp, by simp⟩
  simp only [nx_from_pandas]
  rw [hok]
  rfl

theorem C10_witness :
    nx_from_pandas ⟨[("a", [Val.str "A"]), ("b", [Val.str "B"])]⟩ "a" "b"
      none none none (some ⟨[("i", [Val.int 0])]⟩) none none none none none =
      .error (.keyError none) ∧
    (∀ c, TError.keyError none ≠ TError.columnNotFound c) ∧
    TError.keyError none ≠ TError.invalidArgumentCombination ∧
    TError.keyError none ≠ TError.invalidArgumentType :=
  C10_default_nodes_id ⟨[("a", [Val.str "A"]), ("b", [Val.str "B"])]⟩ "a" "b"
    ⟨[("i", [Val.int 0])]⟩ ⟨[("a", [Val.str "A"]), ("b", [Val.str "B"])]⟩ (by decide)

theorem updateNodes_map_fst (nodes : List (Val × AttrRec)) (n : Val) (d : AttrRec) :
    (nodes.map (fun p => if p.1 = n then (p.1, dictUpdate p.2 d) else p)).map Prod.fst =
      nodes.map Prod.fst := by
  rw [List.map_map]
  apply List.map_congr_left
  intro a _
  by_cases h : a.1 = n <;> simp [h]

theorem set_node_attributes_edges (m : NodeMap) (g : Graph) :
    (set_node_attributes g m).edges = g.edges := by
  induction m generalizing g with
  | nil => rfl
  | cons q rest ih =>
    obtain ⟨n, d⟩ := q
    simp only [set_node_attributes]
    rw [ih]
    split <;> rfl

theorem set_node_attributes_nodeKeys (m : NodeMap) (g : Graph) :
    nodeKeys (set_node_attributes g m) = nodeKeys g := by
  induction m generalizing g with
  | nil => rfl
  | cons q rest ih =>
    obtain ⟨n, d⟩ := q
    simp only [set_node_attributes]
    rw [ih]
    split
    · exact updateNodes_map_fst g.nodes n d
    · rfl

theorem set_node_attributes_not_mem (m : NodeMap) (g : Graph) (p : Val × AttrRec)
    (hp : p ∈ g.nodes) (hn : p.1 ∉ m.map Prod.fst) :
    p ∈ (set_node_attributes g m).nodes := by
  induction m generalizing g with
  | nil => exact hp
  | cons q rest ih =>
    obtain ⟨n, d⟩ := q
    simp only [List.map_cons, List.mem_cons, not_or] at hn
    simp only [set_node_attributes]
    apply ih _ _ hn.2
    split
    · have hfix : (fun p : Val × AttrRec => if p.1 = n then (p.1, dictUpdate p.2 d) else p) p = p := by
        simp [hn.1]
      exact hfix ▸ List.mem_map_of_mem _ hp
    · exact hp

theorem set_node_attributes_mem_update (m : NodeMap) (g : Graph) (n : Val)
    (rec old : AttrRec) (hmnd : (m.map Prod.fst).Nodup) (hgnd : (nodeKeys g).Nodup)
    (hm : (n, rec) ∈ m) (hg : (n, old) ∈ g.nodes) :
    (n, dictUpdate old rec) ∈ (set_node_attributes g m).nodes := by
  induction m generalizing g with
  | nil => simp at hm
  | cons q rest ih =>
    obtain ⟨n', d'⟩ := q
    simp only [List.map_cons, List.nodup_cons] at hmnd
    rcases List.mem_cons.mp hm with heq | hmem
    · injection heq with h1 h2
      subst h1; subst h2
      simp only [set_node_attributes]
      have hin : n ∈ nodeKeys g := List.mem_map_of_mem Prod.fst hg
      rw [if_pos hin]
      apply set_node_attributes_not_mem _ _ _ _ hmnd.1
      have hfix : (fun p : Val × AttrRec => if p.1 = n then (p.1, dictUpdate p.2 rec) else p)
          (n, old) = (n, dictUpdate old rec) := by simp
      exact hfix ▸ List.mem_map_of_mem _ hg
    · have hne : n' ≠ n := by
        intro h
        exact hmnd.1 (h ▸ List.mem_map_of_mem Prod.fst hmem)
      simp only [set_node_attributes]
      split
      · refine ih _ hmnd.2 ?_ hmem ?_
        · show ((g.nodes.map _).map Prod.fst).Nodup
          rw [updateNodes_map_fst]
          exact hgnd
        · have hfix : (fun p : Val × AttrRec => if p.1 = n' then (p.1, dictUpdate p.2 d') else p)
              (n, old) = (n, old) := by simp [hne.symm]
          exact hfix ▸ List.mem_map_of_mem _ hg
      · exact ih _ hmnd.2 hgnd hmem hg

/-- C9: attaching node attributes. -/
theorem C9_attach_node_attributes :
    (∀ (g : Graph) (m : NodeMap), nodeKeys (set_node_attributes g m) = nodeKeys g ∧
      (set_node_attributes g m).edges = g.edges) ∧
    (∀ (g : Graph) (m : NodeMap) (p : Val × AttrRec), p ∈ g.nodes →
      p.1 ∉ m.map Prod.fst → p ∈ (set_node_attributes g m).nodes) ∧
    (∀ (g : Graph) (m : NodeMap) (n : Val) (rec old : AttrRec),
      (m.map Prod.fst).Nodup → (nodeKeys g).Nodup → (n, rec) ∈ m → (n, old) ∈ g.nodes →
      (n, dictUpdate old rec) ∈ (set_node_attributes g m).nodes) ∧
    (∀ (edf : DataFrame) (s t : String) (ec : Option String) (ecm : Option ColorMap)
      (eh : Option String) (ndf : DataFrame) (ni nl nc : Option String)
      (ncm : Option ColorMap) (nh : Option String) (g : Graph),
      nx_from_pandas edf s t ec ecm eh (some ndf) ni nl nc ncm nh = .ok g →
      ∃ g0, nx_from_pandas edf s t ec ecm eh none ni nl nc ncm nh = .ok g0 ∧
        nodeKeys g = nodeKeys g0 ∧ g.edges = g0.edges) := by
  refine ⟨fun g m => ⟨set_node_attributes_nodeKeys m g, set_node_attributes_edges m g⟩,
    fun g m p hp hn => set_node_attributes_not_mem m g p hp hn,
    fun g m n rec old h1 h2 h3 h4 => set_node_attributes_mem_update m g n rec old h1 h2 h3 h4,
    ?_⟩
  intro edf s t ec ecm eh ndf ni nl nc ncm nh g hok
  rcases hte : (transform_edges edf s t ec ecm eh).1 with e | te
  · simp only [nx_from_pandas, hte] at hok
    exact Except.noConfusion hok
  · simp only [nx_from_pandas, hte] at hok ⊢
    rcases htn : (transform_nodes ndf ni nl nc ncm nh).1 with e | nm
    · simp only [htn] at hok
      exact Except.noConfusion hok
    · simp only [htn] at hok
      injection hok with hok
      subst hok
      exact ⟨_, rfl, set_node_attributes_nodeKeys _ _, set_node_attributes_edges _ _⟩

theorem C9_witness :
    ((Val.int 1, ([] : AttrRec)) ∈ (set_node_attributes
      ⟨[(.int 0, []), (.int 1, [])], [(.int 0, .int 1, [])]⟩
      [(.int 0, [("label", .str "zero")]), (.int 7, [("color", .str "red")])]).nodes) ∧
    ((Val.int 0, dictUpdate [] [("label", Val.str "zero")]) ∈ (set_node_attributes
      ⟨[(.int 0, []), (.int 1, [])], [(.int 0, .int 1, [])]⟩
      [(.int 0, [("label", .str "zero")]), (.int 7, [("color", .str "red")])]).nodes) ∧
    (∃ g0, nx_from_pandas ⟨[("s", [.int 0]), ("t", [.int 1])]⟩ "s" "t" none none none
        none (some "i") (some "nm") none none none = .ok g0 ∧
      nodeKeys ⟨[(.int 0, [("label", .str "zero")]), (.int 1, [])],
        [(.int 0, .int 1, [("s", .int 0), ("t", .int 1)])]⟩ = nodeKeys g0 ∧
      (Graph.mk [(.int 0, [("label", .str "zero")]), (.int 1, [])]
        [(.int 0, .int 1, [("s", .int 0), ("t", .int 1)])]).edges = g0.edges) :=
  ⟨C9_attach_node_attributes.2.1 _ _ (Val.int 1, []) (by decide) (by decide),
   C9_attach_node_attributes.2.2.1 _ _ (Val.int 0) [("label", Val.str "zero")] []
     (by decide) (by decide) (by decide) (by decide),
   C9_attach_node_attributes.2.2.2 ⟨[("s", [.int 0]), ("t", [.int 1])]⟩ "s" "t"
     none none none ⟨[("i", [.int 0]), ("nm", [.str "zero"])]⟩
     (some "i") (some "nm") none none none
     ⟨[(.int 0, [("label", .str "zero")]), (.int 1, [])],
      [(.int 0, .int 1, [("s", .int 0), ("t", .int 1)])]⟩ (by decide)⟩

theorem map_range_getD {α : Type} (l : List α) (d : α) :
    (List.range l.length).map (fun j => l.getD j d) = l := by
  induction l with
  | nil => rfl
  | cons a t ih =>
    rw [List.length_cons, List.range_succ_eq_map, List.map_cons, List.map_map]
    have h2 : List.map ((fun j => (a :: t).getD j d) ∘ Nat.succ) (List.range t.length) = t :=
      (List.map_congr_left (fun j _ => by simp)).trans ih
    rw [List.getD_cons_zero, h2]

theorem map_range_getD_comp {α β : Type} (l : List α) (d : α) (g : α → β) :
    (List.range l.length).map (fun j => g (l.getD j d)) = l.map g := by
  have h := congrArg (List.map g) (map_range_getD l d)
  rw [List.map_map] at h
  exact h

theorem selectCols_ok_shape (df : DataFrame) (cs : List (Option String)) (sel : DataFrame)
    (h : selectCols df cs = .ok sel) :
    sel.cols = cs.flatMap (fun c => match c with
      | some s => df.cols.filter (fun p => decide (p.1 = s))
      | none => []) ∧
    ∀ c ∈ cs, ∃ s, c = some s ∧ s ∈ columnNames df := by
  induction cs generalizing sel with
  | nil =>
    simp only [selectCols] at h
    injection h with h
    subst h
    exact ⟨rfl, by simp⟩
  | cons c rest ih =>
    match c with
    | none => simp [selectCols] at h
    | some s =>
      simp only [selectCols] at h
      by_cases hs : s ∈ columnNames df
      · rw [if_pos hs] at h
        rcases hrest : selectCols df rest with e | r
        · rw [hrest] at h; exact Except.noConfusion h
        · rw [hrest] at h
          injection h with h
          subst h
          obtain ⟨h1, h2⟩ := ih r hrest
          refine ⟨?_, ?_⟩
          · simp only [List.flatMap_cons, h1]
          · intro c hc
            rcases List.mem_cons.mp hc with rfl | hmem
            · exact ⟨s, rfl, hs⟩
            · exact h2 c hmem
      · rw [if_neg hs] at h
        exact Except.noConfusion h

theorem selectCols_ok_of_mem (df : DataFrame) (cs : List (Option String))
    (h : ∀ c ∈ cs, ∃ s, c = some s ∧ s ∈ columnNames df) :
    selectCols df cs = .ok ⟨cs.flatMap (fun c => match c with
      | some s => df.cols.filter (fun p => decide (p.1 = s))
      | none => [])⟩ := by
  induction cs with
  | nil => rfl
  | cons c rest ih =>
    obtain ⟨s, rfl, hs⟩ := h c (List.mem_cons_self _ _)
    simp only [selectCols, if_pos hs]
    rw [ih (fun c hc => h c (List.mem_cons_of_mem _ hc))]
    simp only [List.flatMap_cons]

theorem columnNames_setCol (df : DataFrame) (c : String) (vs : List Val) :
    columnNames (setCol df c vs) =
      if c ∈ columnNames df then columnNames df else columnNames df ++ [c] := by
  simp only [setCol]
  split
  · simp only [columnNames, List.map_map]
    apply List.map_congr_left
    intro p _
    by_cases hp : p.1 = c <;> simp [hp]
  · simp [columnNames]

theorem mem_columnNames_setCol_of_mem (df : DataFrame) (c x : String) (vs : List Val)
    (hx : x ∈ columnNames df) : x ∈ columnNames (setCol df c vs) := by
  rw [columnNames_setCol]
  split
  · exact hx
  · exact List.mem_append_left _ hx

theorem mem_columnNames_setCol_self (df : DataFrame) (c : String) (vs : List Val) :
    c ∈ columnNames (setCol df c vs) := by
  rw [columnNames_setCol]
  split
  · assumption
  · exact List.mem_append_right _ (List.mem_singleton.mpr rfl)

theorem setCol_values (df : DataFrame) (c : String) (vs : List Val) (p : String × List Val)
    (hp : p ∈ (setCol df c vs).cols) (hc : p.1 = c) : p.2 = vs := by
  simp only [setCol] at hp
  by_cases hmem : c ∈ columnNames df
  · rw [if_pos hmem] at hp
    obtain ⟨q, _, hq⟩ := List.mem_map.mp hp
    by_cases hq1 : q.1 = c
    · rw [if_pos hq1] at hq
      rw [← hq]
    · rw [if_neg hq1] at hq
      exact absurd (hq ▸ hc) hq1
  · rw [if_neg hmem] at hp
    rcases List.mem_append.mp hp with hin | hone
    · exact absurd (hc ▸ List.mem_map_of_mem Prod.fst hin) hmem
    · rw [List.mem_singleton.mp hone]

theorem getCol_setCol_self (df : DataFrame) (c : String) (vs : List Val) :
    getCol (setCol df c vs) c = vs := by
  have hmem : c ∈ columnNames (setCol df c vs) := mem_columnNames_setCol_self df c vs
  obtain ⟨p, hp, hp1⟩ := List.mem_map.mp hmem
  rcases hfind : (setCol df c vs).cols.find? (fun p => decide (p.1 = c)) with _ | q
  · exfalso
    rw [List.find?_eq_none] at hfind
    exact hfind p hp (by simp [hp1])
  · have hq1 : q.1 = c := by simpa using List.find?_some hfind
    have hq2 : q.2 = vs :=
      setCol_values df c vs q (List.mem_of_find?_eq_some hfind) hq1
    simp [getCol, hfind, hq2]

theorem filter_name_setCol_ne (df : DataFrame) (c x : String) (vs : List Val) (hx : x ≠ c) :
    (setCol df c vs).cols.filter (fun p => decide (p.1 = x)) =
      df.cols.filter (fun p => decide (p.1 = x)) := by
  simp only [setCol]
  split
  · induction df.cols with
    | nil => rfl
    | cons p rest ih =>
      by_cases hp : p.1 = c
      · simp only [List.map_cons, if_pos hp]
        rw [List.filter_cons, List.filter_cons]
        have h1 : ¬ (c = x) := fun h => hx (h ▸ rfl)
        simp only [decide_eq_true_eq, hp]
        rw [if_neg (by simpa using h1), if_neg (by simpa using h1)]
        exact ih
      · simp only [List.map_cons, if_neg hp]
        rw [List.filter_cons, List.filter_cons]
        split
        · rw [ih]
        · exact ih
  · rw [List.filter_append]
    have : List.filter (fun p => decide (p.1 = x)) [(c, vs)] = [] := by
      simp [Ne.symm hx]
    rw [this, List.append_nil]

theorem filter_name_nodup_list (l : List (String × List Val)) (x : String)
    (hnd : (l.map Prod.fst).Nodup) (hx : x ∈ l.map Prod.fst) :
    l.filter (fun p => decide (p.1 = x)) = [(x, getCol ⟨l⟩ x)] := by
  induction l with
  | nil => simp at hx
  | cons p rest ih =>
    simp only [List.map_cons, List.nodup_cons] at hnd
    by_cases hp : p.1 = x
    · have hrest : List.filter (fun p => decide (p.1 = x)) rest = [] := by
        rw [List.filter_eq_nil_iff]
        intro q hq hqx
        exact hnd.1 (hp ▸ (show q.1 = x by simpa using hqx) ▸ List.mem_map_of_mem Prod.fst hq)
      rw [List.filter_cons, if_pos (by simpa using hp), hrest]
      have hget : getCol ⟨p :: rest⟩ x = p.2 := by
        simp [getCol, List.find?_cons, hp]
      rw [hget]
      have hpx : p = (x, p.2) := by
        rw [← hp]
      rw [← hpx]
    · have hxrest : x ∈ rest.map Prod.fst := by
        rcases List.mem_map.mp hx with ⟨q, hq, hq1⟩
        rcases List.mem_cons.mp hq with rfl | hmem
        · exact absurd hq1 hp
        · exact hq1 ▸ List.mem_map_of_mem Prod.fst hmem
      have hget : getCol ⟨p :: rest⟩ x = getCol ⟨rest⟩ x := by
        simp [getCol, List.find?_cons, hp]
      rw [List.filter_cons, if_neg (by simpa using hp), hget]
      exact ih hnd.2 hxrest

theorem filter_name_nodup (df : DataFrame) (x : String)
    (hnd : (columnNames df).Nodup) (hx : x ∈ columnNames df) :
    df.cols.filter (fun p => decide (p.1 = x)) = [(x, getCol df x)] :=
  filter_name_nodup_list df.cols x hnd hx

theorem columnNames_setCol_nodup (df : DataFrame) (c : String) (vs : List Val)
    (hnd : (columnNames df).Nodup) : (columnNames (setCol df c vs)).Nodup := by
  rw [columnNames_setCol]
  split
  · exact hnd
  · rename_i hmem
    simp [List.nodup_append, hnd, hmem]

theorem toDict_singleton (k : String) (v : Val) : toDict [(k, v)] = [(k, v)] := by
  simp [toDict, dictInsert]

theorem checkCols_ok_mem (df : DataFrame) (cs : List String)
    (h : checkCols df cs = .ok ()) : ∀ x ∈ cs, x ∈ columnNames df := by
  induction cs with
  | nil => simp
  | cons c rest ih =>
    by_cases hc : c ∈ columnNames df
    · simp only [checkCols, if_pos hc] at h
      intro x hx
      rcases List.mem_cons.mp hx with rfl | hmem
      · exact hc
      · exact ih h x hmem
    · simp [checkCols, if_neg hc] at h

theorem getCol_eq_of_all (l : List (String × List Val)) (x : String) (vs : List Val)
    (hex : ∃ p ∈ l, p.1 = x) (hall : ∀ p ∈ l, p.1 = x → p.2 = vs) :
    getCol ⟨l⟩ x = vs := by
  rcases hfind : l.find? (fun p => decide (p.1 = x)) with _ | q
  · exfalso
    rw [List.find?_eq_none] at hfind
    obtain ⟨p, hp, hp1⟩ := hex
    exact hfind p hp (by simp [hp1])
  · have hq1 : q.1 = x := by simpa using List.find?_some hfind
    have hq2 := hall q (List.mem_of_find?_eq_some hfind) hq1
    simp [getCol, hfind, hq2]

theorem transform_edges_color_spec (df : DataFrame) (s t c : String) (cm : ColorMap)
    (hchk : checkCols df (([some s, some t, some c, none]).filterMap (fun x => x)) = .ok ()) :
    ∃ out, (transform_edges df s t (some c) (some cm) none).1 = .ok out ∧
      getCol out "color" = (getCol df c).map (mapLookup cm) := by
  have hs : s ∈ columnNames df := checkCols_ok_mem df _ hchk s (by simp)
  have ht : t ∈ columnNames df := checkCols_ok_mem df _ hchk t (by simp)
  have hsel := selectCols_ok_of_mem (setCol df "color" ((getCol df c).map (mapLookup cm)))
    [some s, some t, some "color"]
    (by
      intro x hx
      rcases List.mem_cons.mp hx with rfl | hx
      · exact ⟨s, rfl, mem_columnNames_setCol_of_mem df "color" s _ hs⟩
      rcases List.mem_cons.mp hx with rfl | hx
      · exact ⟨t, rfl, mem_columnNames_setCol_of_mem df "color" t _ ht⟩
      rcases List.mem_cons.mp hx with rfl | hx
      · exact ⟨"color", rfl, mem_columnNames_setCol_self df "color" _⟩
      · simp at hx)
  refine ⟨⟨([some s, some t, some "color"]).flatMap (fun c0 => match c0 with
    | some s0 => (setCol df "color" ((getCol df c).map (mapLookup cm))).cols.filter
        (fun p => decide (p.1 = s0))
    | none => [])⟩, ?_, ?_⟩
  · simp only [transform_edges]
    rw [hchk]
    exact hsel
  · simp only [List.flatMap_cons, List.flatMap_nil, List.append_nil]
    apply getCol_eq_of_all
    · have hmem := mem_columnNames_setCol_self df "color"
        ((getCol df c).map (mapLookup cm))
      obtain ⟨p, hp, hp1⟩ := List.mem_map.mp hmem
      refine ⟨p, ?_, hp1⟩
      apply List.mem_append_right
      apply List.mem_append_right
      exact List.mem_filter.mpr ⟨hp, by simp [hp1]⟩
    · intro p hp hp1
      have hpin : p ∈ (setCol df "color" ((getCol df c).map (mapLookup cm))).cols := by
        rcases List.mem_append.mp hp with h1 | h2
        · exact (List.mem_filter.mp h1).1
        rcases List.mem_append.mp h2 with h3 | h4
        · exact (List.mem_filter.mp h3).1
        · exact (List.mem_filter.mp h4).1
      exact setCol_values df "color" _ p hpin hp1

theorem setIndexToDict_two (i x : String) (ivals xvals : List Val) (hix : x ≠ i)
    (hnd : ivals.Nodup) :
    setIndexToDict ⟨[(i, ivals), (x, xvals)]⟩ (some i) =
      .ok ((List.range ivals.length).map (fun j =>
        (ivals.getD j Val.na, toDict [(x, xvals.getD j Val.na)]))) := by
  have hf1 : List.filter (fun p => decide (p.1 = i)) [(i, ivals), (x, xvals)] =
      [(i, ivals)] := by simp [hix]
  have hf2 : List.filter (fun p => decide (p.1 ≠ i)) [(i, ivals), (x, xvals)] =
      [(x, xvals)] := by simp [hix]
  simp only [setIndexToDict, hf1, hf2]
  rw [if_pos hnd]
  rfl

theorem transform_nodes_color_closed_form (ndf : DataFrame) (i c : String) (cm : ColorMap)
    (hic : i ≠ "color") (hnd : (columnNames ndf).Nodup)
    (hchk : checkCols ndf (([some i, none, some c, none]).filterMap (fun x => x)) = .ok ())
    (hidnd : (getCol ndf i).Nodup)
    (hlen : (getCol ndf c).length = (getCol ndf i).length) :
    ∃ m, (transform_nodes ndf (some i) none (some c) (some cm) none).1 = .ok m ∧
      m.map Prod.fst = getCol ndf i ∧
      m.map Prod.snd = ((getCol ndf c).map (mapLookup cm)).map (fun v => [("color", v)]) := by
  have hi : i ∈ columnNames ndf := checkCols_ok_mem ndf _ hchk i (by simp)
  have hc : c ∈ columnNames ndf := checkCols_ok_mem ndf _ hchk c (by simp)
  have hsel := selectCols_ok_of_mem (setCol ndf "color" ((getCol ndf c).map (mapLookup cm)))
    [some i, some "color"]
    (by
      intro x hx
      rcases List.mem_cons.mp hx with rfl | hx
      · exact ⟨i, rfl, mem_columnNames_setCol_of_mem ndf "color" i _ hi⟩
      rcases List.mem_cons.mp hx with rfl | hx
      · exact ⟨"color", rfl, mem_columnNames_setCol_self ndf "color" _⟩
      · simp at hx)
  have h1 : (transform_nodes ndf (some i) none (some c) (some cm) none).1 =
      (match selectCols (setCol ndf "color" ((getCol ndf c).map (mapLookup cm)))
          [some i, some "color"] with
        | Except.error e => ((Except.error e : Except TError NodeMap), ndf)
        | Except.ok sel => (setIndexToDict sel (some i), ndf)).1 := by
    simp only [transform_nodes]
    rw [hchk]
    rfl
  rw [hsel] at h1
  have hFi : (setCol ndf "color" ((getCol ndf c).map (mapLookup cm))).cols.filter
      (fun p => decide (p.1 = i)) = [(i, getCol ndf i)] := by
    rw [filter_name_setCol_ne ndf "color" i _ hic]
    exact filter_name_nodup ndf i hnd hi
  have hFc : (setCol ndf "color" ((getCol ndf c).map (mapLookup cm))).cols.filter
      (fun p => decide (p.1 = "color")) = [("color", (getCol ndf c).map (mapLookup cm))] := by
    rw [filter_name_nodup (setCol ndf "color" _) "color"
      (columnNames_setCol_nodup ndf "color" _ hnd)
      (mem_columnNames_setCol_self ndf "color" _), getCol_setCol_self]
  have h2 : (transform_nodes ndf (some i) none (some c) (some cm) none).1 =
      setIndexToDict ⟨[(i, getCol ndf i),
        ("color", (getCol ndf c).map (mapLookup cm))]⟩ (some i) := by
    rw [h1]
    simp only [List.flatMap_cons, List.flatMap_nil, List.append_nil, hFi, hFc]
    rfl
  have hset := setIndexToDict_two i "color" (getCol ndf i)
    ((getCol ndf c).map (mapLookup cm)) (Ne.symm hic) hidnd
  refine ⟨_, h2.trans hset, ?_, ?_⟩
  · rw [List.map_map]
    exact (List.map_congr_left (fun j _ => rfl)).trans (map_range_getD _ Val.na)
  · rw [List.map_map]
    have hlen2 : (getCol ndf i).length = ((getCol ndf c).map (mapLookup cm)).length := by
      rw [List.length_map]
      exact hlen.symm
    calc ((List.range (getCol ndf i).length).map (fun j =>
            toDict [("color", ((getCol ndf c).map (mapLookup cm)).getD j Val.na)]))
        = (List.range ((getCol ndf c).map (mapLookup cm)).length).map (fun j =>
            [("color", ((getCol ndf c).map (mapLookup cm)).getD j Val.na)]) := by
          rw [← hlen2]
          exact List.map_congr_left (fun j _ => toDict_singleton _ _)
      _ = ((getCol ndf c).map (mapLookup cm)).map (fun v => [("color", v)]) :=
          map_range_getD_comp ((getCol ndf c).map (mapLookup cm)) Val.na
            (fun v => [("color", v)])

/-- C6: with both `color` and `color_map` supplied and valid, the derived
`color` value of each row is the `color_map` look-up of that row's
`color`-column value (rows pass through `series.map`, so the whole derived
column equals the mapped column); values absent from the map yield NaN
(`mapLookup` returns `Val.na`) rather than raising; and for the node
transformer the resulting mapping pairs each identifier with exactly the
looked-up color. -/
theorem C6_color_map_lookup :
    (∀ (df : DataFrame) (s t c : String) (cm : ColorMap),
      checkCols df (([some s, some t, some c, none]).filterMap (fun x => x)) = .ok () →
      ∃ out, (transform_edges df s t (some c) (some cm) none).1 = .ok out ∧
        getCol out "color" = (getCol df c).map (mapLookup cm)) ∧
    (∀ (m : ColorMap) (v : Val), (∀ p ∈ m, p.1 ≠ v) → mapLookup m v = Val.na) ∧
    (∀ (ndf : DataFrame) (i c : String) (cm : ColorMap),
      i ≠ "color" → (columnNames ndf).Nodup →
      checkCols ndf (([some i, none, some c, none]).filterMap (fun x => x)) = .ok () →
      (getCol ndf i).Nodup → (getCol ndf c).length = (getCol ndf i).length →
      ∃ m, (transform_nodes ndf (some i) none (some c) (some cm) none).1 = .ok m ∧
        m.map Prod.fst = getCol ndf i ∧
        m.map Prod.snd = ((getCol ndf c).map (mapLookup cm)).map
          (fun v => [("color", v)])) := by
  refine ⟨transform_edges_color_spec, ?_, transform_nodes_color_closed_form⟩
  intro m v h
  rcases hfind : m.find? (fun p => decide (p.1 = v)) with _ | q
  · simp [mapLookup, hfind]
  · exact absurd (by simpa using List.find?_some hfind)
      (h q (List.mem_of_find?_eq_some hfind))

theorem C6_witness :
    (∃ out, (transform_edges ⟨[("a", [Val.str "A"]), ("b", [Val.str "B"]),
        ("cat", [Val.str "x"])]⟩ "a" "b" (some "cat")
        (some [(Val.str "x", Val.str "red"), (Val.str "y", Val.str "blue")]) none).1 =
        .ok out ∧
      getCol out "color" =
        (getCol ⟨[("a", [Val.str "A"]), ("b", [Val.str "B"]), ("cat", [Val.str "x"])]⟩
          "cat").map (mapLookup [(Val.str "x", Val.str "red"),
            (Val.str "y", Val.str "blue")])) ∧
    mapLookup [(Val.str "x", Val.str "red")] (Val.str "z") = Val.na ∧
    (∃ m, (transform_nodes ⟨[("i", [Val.str "A"]), ("cat", [Val.str "x"])]⟩
        (some "i") none (some "cat")
        (some [(Val.str "x", Val.str "red"), (Val.str "y", Val.str "blue")]) none).1 =
        .ok m ∧
      m.map Prod.fst = getCol ⟨[("i", [Val.str "A"]), ("cat", [Val.str "x"])]⟩ "i" ∧
      m.map Prod.snd = ((getCol ⟨[("i", [Val.str "A"]), ("cat", [Val.str "x"])]⟩
          "cat").map (mapLookup [(Val.str "x", Val.str "red"),
            (Val.str "y", Val.str "blue")])).map (fun v => [("color", v)])) :=
  ⟨C6_color_map_lookup.1 _ "a" "b" "cat" _ (by decide),
   C6_color_map_lookup.2.1 [(Val.str "x", Val.str "red")] (Val.str "z") (by decide),
   C6_color_map_lookup.2.2 _ "i" "cat" _ (by decide) (by decide) (by decide)
     (by decide) (by decide)⟩

theorem renameCol_self_id (df : DataFrame) (t : String) : renameCol df t t = df := by
  simp only [renameCol]
  have h : df.cols.map (fun p => if p.1 = t then (t, p.2) else p) = df.cols := by
    have h1 : df.cols.map (fun p => if p.1 = t then (t, p.2) else p) =
        df.cols.map id := by
      apply List.map_congr_left
      intro p _
      by_cases hp : p.1 = t
      · rw [if_pos hp, ← hp]
        exact Prod.mk.eta
      · rw [if_neg hp]
        rfl
    rw [h1, List.map_id]
  rw [h]

theorem mem_columnNames_renameCol_of_ne (df : DataFrame) (old nw x : String)
    (hx : x ∈ columnNames df) (hne : x ≠ old) : x ∈ columnNames (renameCol df old nw) := by
  obtain ⟨p, hp, hp1⟩ := List.mem_map.mp hx
  apply List.mem_map.mpr
  refine ⟨(fun p => if p.1 = old then (nw, p.2) else p) p, List.mem_map_of_mem _ hp, ?_⟩
  dsimp only
  rw [if_neg (hp1 ▸ hne : p.1 ≠ old)]
  exact hp1

theorem nw_mem_columnNames_renameCol (df : DataFrame) (old nw : String)
    (hold : old ∈ columnNames df) : nw ∈ columnNames (renameCol df old nw) := by
  obtain ⟨p, hp, hp1⟩ := List.mem_map.mp hold
  apply List.mem_map.mpr
  refine ⟨(fun p => if p.1 = old then (nw, p.2) else p) p, List.mem_map_of_mem _ hp, ?_⟩
  dsimp only
  rw [if_pos hp1]

theorem filter_name_renameCol_ne (df : DataFrame) (old nw x : String)
    (h1 : x ≠ old) (h2 : x ≠ nw) :
    (renameCol df old nw).cols.filter (fun p => decide (p.1 = x)) =
      df.cols.filter (fun p => decide (p.1 = x)) := by
  simp only [renameCol]
  induction df.cols with
  | nil => rfl
  | cons p rest ih =>
    rw [List.map_cons, List.filter_cons, List.filter_cons]
    by_cases hp : p.1 = old
    · rw [if_pos hp]
      have ha : ¬ (decide ((nw, p.2).1 = x) = true) := by simp [Ne.symm h2]
      have hb : ¬ (decide (p.1 = x) = true) := by simp [hp, Ne.symm h1]
      rw [if_neg ha, if_neg hb]
      exact ih
    · rw [if_neg hp]
      split
      · rw [ih]
      · exact ih

theorem filter_nw_renameCol_list (l : List (String × List Val)) (old nw : String)
    (hnot : nw ∉ l.map Prod.fst) :
    (l.map (fun p => if p.1 = old then (nw, p.2) else p)).filter
        (fun p => decide (p.1 = nw)) =
      (l.filter (fun p => decide (p.1 = old))).map (fun p => (nw, p.2)) := by
  induction l with
  | nil => rfl
  | cons p rest ih =>
    simp only [List.map_cons, List.mem_cons, not_or] at hnot
    obtain ⟨hpn, hrest⟩ := hnot
    rw [List.map_cons, List.filter_cons, List.filter_cons]
    by_cases hp : p.1 = old
    · rw [if_pos hp, if_pos (show decide (((nw, p.2) : String × List Val).1 = nw) = true
        by simp), if_pos (by simp [hp]), List.map_cons, ih hrest]
    · rw [if_neg hp, if_neg (show ¬ (decide (p.1 = nw) = true) by
        simp only [decide_eq_true_eq]; exact fun h => hpn h.symm),
        if_neg (show ¬ (decide (p.1 = old) = true) by simp [hp])]
      exact ih hrest

theorem filter_nw_renameCol (df : DataFrame) (old nw : String)
    (hnot : nw ∉ columnNames df) :
    (renameCol df old nw).cols.filter (fun p => decide (p.1 = nw)) =
      (df.cols.filter (fun p => decide (p.1 = old))).map (fun p => (nw, p.2)) :=
  filter_nw_renameCol_list df.cols old nw hnot

theorem transform_edges_hover_spec (df : DataFrame) (s t h : String)
    (hchk : checkCols df (([some s, some t, none, some h]).filterMap (fun x => x)) = .ok ())
    (hhs : h ≠ s) (hht : h ≠ t) :
    ∃ out, (transform_edges df s t none none (some h)).1 = .ok out ∧
      ("title", getCol df h) ∈ out.cols ∧
      (h ≠ "title" → h ∉ columnNames out) := by
  have hs : s ∈ columnNames df := checkCols_ok_mem df _ hchk s (by simp)
  have ht : t ∈ columnNames df := checkCols_ok_mem df _ hchk t (by simp)
  have hh : h ∈ columnNames df := checkCols_ok_mem df _ hchk h (by simp)
  have hsel := selectCols_ok_of_mem (renameCol df h "title") [some s, some t, some "title"]
    (by
      intro x hx
      rcases List.mem_cons.mp hx with rfl | hx
      · exact ⟨s, rfl, mem_columnNames_renameCol_of_ne df h "title" s hs (Ne.symm hhs)⟩
      rcases List.mem_cons.mp hx with rfl | hx
      · exact ⟨t, rfl, mem_columnNames_renameCol_of_ne df h "title" t ht (Ne.symm hht)⟩
      rcases List.mem_cons.mp hx with rfl | hx
      · exact ⟨"title", rfl, nw_mem_columnNames_renameCol df h "title" hh⟩
      · simp at hx)
  refine ⟨⟨([some s, some t, some "title"]).flatMap (fun c0 => match c0 with
    | some s0 => (renameCol df h "title").cols.filter (fun p => decide (p.1 = s0))
    | none => [])⟩, ?_, ?_, ?_⟩
  · simp only [transform_edges]
    rw [hchk]
    exact hsel
  · simp only [List.flatMap_cons, List.flatMap_nil, List.append_nil]
    have hq : ∃ q, df.cols.find? (fun p => decide (p.1 = h)) = some q := by
      rcases hf : df.cols.find? (fun p => decide (p.1 = h)) with _ | q
      · exfalso
        rw [List.find?_eq_none] at hf
        obtain ⟨p, hp, hp1⟩ := List.mem_map.mp hh
        exact hf p hp (by simp [hp1])
      · exact ⟨q, hf⟩
    obtain ⟨q, hq⟩ := hq
    have hq1 : q.1 = h := by simpa using List.find?_some hq
    have hqmem : q ∈ df.cols := List.mem_of_find?_eq_some hq
    have hget : getCol df h = q.2 := by simp [getCol, hq]
    have hmem2 : ("title", q.2) ∈ (renameCol df h "title").cols := by
      have hm := List.mem_map_of_mem
        (fun p : String × List Val => if p.1 = h then ("title", p.2) else p) hqmem
      have he : (fun p : String × List Val => if p.1 = h then ("title", p.2) else p) q =
          ("title", q.2) := by
        dsimp only
        rw [if_pos hq1]
      exact he ▸ hm
    apply List.mem_append_right
    apply List.mem_append_right
    rw [hget]
    exact List.mem_filter.mpr ⟨hmem2, by simp⟩
  · intro hneq hmem
    simp only [columnNames, List.flatMap_cons, List.flatMap_nil, List.append_nil] at hmem
    obtain ⟨p, hp, hp1⟩ := List.mem_map.mp hmem
    rcases List.mem_append.mp hp with h1 | h23
    · exact hhs (hp1.symm.trans (by simpa using (List.mem_filter.mp h1).2))
    · rcases List.mem_append.mp h23 with h2 | h3
      · exact hht (hp1.symm.trans (by simpa using (List.mem_filter.mp h2).2))
      · exact hneq (hp1.symm.trans (by simpa using (List.mem_filter.mp h3).2))

theorem transform_nodes_hover_closed_form (ndf : DataFrame) (i h : String)
    (hih : i ≠ h) (hnd : (columnNames ndf).Nodup)
    (hchk : checkCols ndf (([some i, none, none, some h]).filterMap (fun x => x)) = .ok ())
    (htitle : "title" ∈ columnNames ndf → h = "title")
    (hidnd : (getCol ndf i).Nodup)
    (hlen : (getCol ndf h).length = (getCol ndf i).length) :
    ∃ m, (transform_nodes ndf (some i) none none none (some h)).1 = .ok m ∧
      m.map Prod.fst = getCol ndf i ∧
      m.map Prod.snd = (getCol ndf h).map (fun v => [("title", v)]) := by
  have hi : i ∈ columnNames ndf := checkCols_ok_mem ndf _ hchk i (by simp)
  have hh : h ∈ columnNames ndf := checkCols_ok_mem ndf _ hchk h (by simp)
  have hit : i ≠ "title" := fun he => hih (he.trans (htitle (he ▸ hi)).symm)
  have hsel := selectCols_ok_of_mem (renameCol ndf h "title") [some i, some "title"]
    (by
      intro x hx
      rcases List.mem_cons.mp hx with rfl | hx
      · exact ⟨i, rfl, mem_columnNames_renameCol_of_ne ndf h "title" i hi hih⟩
      rcases List.mem_cons.mp hx with rfl | hx
      · exact ⟨"title", rfl, nw_mem_columnNames_renameCol ndf h "title" hh⟩
      · simp at hx)
  have h1 : (transform_nodes ndf (some i) none none none (some h)).1 =
      (match selectCols (renameCol ndf h "title") [some i, some "title"] with
        | Except.error e => ((Except.error e : Except TError NodeMap), ndf)
        | Except.ok sel => (setIndexToDict sel (some i), ndf)).1 := by
    simp only [transform_nodes]
    rw [hchk]
    rfl
  rw [hsel] at h1
  have hFi : (renameCol ndf h "title").cols.filter (fun p => decide (p.1 = i)) =
      [(i, getCol ndf i)] := by
    rw [filter_name_renameCol_ne ndf h "title" i hih hit]
    exact filter_name_nodup ndf i hnd hi
  have hFt : (renameCol ndf h "title").cols.filter (fun p => decide (p.1 = "title")) =
      [("title", getCol ndf h)] := by
    by_cases hcase : h = "title"
    · subst hcase
      rw [renameCol_self_id]
      exact filter_name_nodup ndf "title" hnd hh
    · have hnot : "title" ∉ columnNames ndf := fun hmem => hcase (htitle hmem)
      rw [filter_nw_renameCol ndf h "title" hnot, filter_name_nodup ndf h hnd hh]
      rfl
  have h2 : (transform_nodes ndf (some i) none none none (some h)).1 =
      setIndexToDict ⟨[(i, getCol ndf i), ("title", getCol ndf h)]⟩ (some i) := by
    rw [h1]
    simp only [List.flatMap_cons, List.flatMap_nil, List.append_nil, hFi, hFt]
    rfl
  have hset := setIndexToDict_two i "title" (getCol ndf i) (getCol ndf h)
    (Ne.symm hit) hidnd
  refine ⟨_, h2.trans hset, ?_, ?_⟩
  · rw [List.map_map]
    exact (List.map_congr_left (fun j _ => rfl)).trans (map_range_getD _ Val.na)
  · rw [List.map_map]
    calc ((List.range (getCol ndf i).length).map (fun j =>
            toDict [("title", (getCol ndf h).getD j Val.na)]))
        = (List.range (getCol ndf h).length).map (fun j =>
            [("title", (getCol ndf h).getD j Val.na)]) := by
          rw [hlen]
          exact List.map_congr_left (fun j _ => toDict_singleton _ _)
      _ = (getCol ndf h).map (fun v => [("title", v)]) :=
          map_range_getD_comp (getCol ndf h) Val.na (fun v => [("title", v)])

/-- C7 (counterexample): when the supplied `hover` column is also the source
column, the call does not rename-and-return: after `rename` turns the source
column into `title`, the final column selection no longer finds the source
name and the call fails with a raw `KeyError`, even though the table does
contain the hover column. -/
theorem C7_counterexample :
    (transform_edges ⟨[("a", [Val.str "A"]), ("b", [Val.str "B"])]⟩ "a" "b"
      none none (some "a")).1 = .error (.keyError (some "a")) := by
  decide

/-- C7 (amended): provided the hover column is distinct from the
source/target columns (edge transformer) resp. the identifier column (node
transformer) — and, for the node transformer's mapping form, the reserved
name `title` is not already a different column — both transformers rename
the hover column to `title`, preserve its values row for row, include it in
the output, and the original hover name does not survive. -/
theorem C7_hover_rename_amended :
    (∀ (df : DataFrame) (s t h : String),
      checkCols df (([some s, some t, none, some h]).filterMap (fun x => x)) = .ok () →
      h ≠ s → h ≠ t →
      ∃ out, (transform_edges df s t none none (some h)).1 = .ok out ∧
        ("title", getCol df h) ∈ out.cols ∧
        (h ≠ "title" → h ∉ columnNames out)) ∧
    (∀ (ndf : DataFrame) (i h : String),
      i ≠ h → (columnNames ndf).Nodup →
      checkCols ndf (([some i, none, none, some h]).filterMap (fun x => x)) = .ok () →
      ("title" ∈ columnNames ndf → h = "title") →
      (getCol ndf i).Nodup → (getCol ndf h).length = (getCol ndf i).length →
      ∃ m, (transform_nodes ndf (some i) none none none (some h)).1 = .ok m ∧
        m.map Prod.fst = getCol ndf i ∧
        m.map Prod.snd = (getCol ndf h).map (fun v => [("title", v)])) :=
  ⟨fun df s t h h1 h2 h3 => transform_edges_hover_spec df s t h h1 h2 h3,
   fun ndf i h h1 h2 h3 h4 h5 h6 =>
     transform_nodes_hover_closed_form ndf i h h1 h2 h3 h4 h5 h6⟩

theorem C7_witness :
    (∃ out, (transform_edges ⟨[("a", [Val.str "A"]), ("b", [Val.str "B"]),
        ("note", [Val.str "N"])]⟩ "a" "b" none none (some "note")).1 = .ok out ∧
      ("title", getCol ⟨[("a", [Val.str "A"]), ("b", [Val.str "B"]),
        ("note", [Val.str "N"])]⟩ "note") ∈ out.cols ∧
      ("note" ≠ "title" → "note" ∉ columnNames out)) ∧
    (∃ m, (transform_nodes ⟨[("i", [Val.str "A"]), ("note", [Val.str "N"])]⟩
        (some "i") none none none (some "note")).1 = .ok m ∧
      m.map Prod.fst = getCol ⟨[("i", [Val.str "A"]), ("note", [Val.str "N"])]⟩ "i" ∧
      m.map Prod.snd = (getCol ⟨[("i", [Val.str "A"]), ("note", [Val.str "N"])]⟩
        "note").map (fun v => [("title", v)])) :=
  ⟨C7_hover_rename_amended.1 _ "a" "b" "note" (by decide) (by decide) (by decide),
   C7_hover_rename_amended.2 _ "i" "note" (by decide) (by decide) (by decide)
     (by decide) (by decide) (by decide)⟩

theorem C3_amended_witness :
    (transform_edges ⟨[("a", [Val.str "A"]), ("b", [Val.str "B"])]⟩ "a" "b"
      (some "a") none none).1 = .error .invalidArgumentCombination ∧
    (transform_edges ⟨[("a", [Val.str "A"]), ("b", [Val.str "B"])]⟩ "a" "b"
      none (some [(Val.str "x", Val.str "red")]) none).1 =
      .error .invalidArgumentCombination ∧
    (transform_nodes ⟨[("a", [Val.str "A"]), ("b", [Val.str "B"])]⟩ (some "a") none
      (some "b") none none).1 = .error .invalidArgumentCombination ∧
    (transform_nodes ⟨[("a", [Val.str "A"]), ("b", [Val.str "B"])]⟩ (some "a") none
      none (some [(Val.str "x", Val.str "red")]) none).1 =
      .error .invalidArgumentCombination :=
  ⟨(C3_invalid_combination_amended ⟨[("a", [Val.str "A"]), ("b", [Val.str "B"])]⟩
      "a" "b" none).1 "a" (by decide),
   (C3_invalid_combination_amended ⟨[("a", [Val.str "A"]), ("b", [Val.str "B"])]⟩
      "a" "b" none).2.1 [(Val.str "x", Val.str "red")] (by decide),
   (C3_invalid_combination_amended ⟨[("a", [Val.str "A"]), ("b", [Val.str "B"])]⟩
      "a" "b" none).2.2.1 (some "a") none "b" (by decide),
   (C3_invalid_combination_amended ⟨[("a", [Val.str "A"]), ("b", [Val.str "B"])]⟩
      "a" "b" none).2.2.2 (some "a") none [(Val.str "x", Val.str "red")] (by decide)⟩

theorem filter_name_filter_name (l : List (String × List Val)) (x y : String) :
    (l.filter (fun p => decide (p.1 = x))).filter (fun p => decide (p.1 = y)) =
      if x = y then l.filter (fun p => decide (p.1 = y)) else [] := by
  by_cases hxy : x = y
  · subst hxy
    rw [if_pos rfl, List.filter_filter]
    apply List.filter_congr
    intro p _
    simp
  · rw [if_neg hxy, List.filter_eq_nil_iff]
    intro p hp
    have := (List.mem_filter.mp hp).2
    simp only [decide_eq_true_eq] at this ⊢
    exact fun h => hxy (this ▸ h ▸ rfl)

theorem filter_name_filter_ne (l : List (String × List Val)) (x y : String) :
    (l.filter (fun p => decide (p.1 = x))).filter (fun p => decide (p.1 ≠ y)) =
      if x = y then [] else l.filter (fun p => decide (p.1 = x)) := by
  by_cases hxy : x = y
  · subst hxy
    rw [if_pos rfl, List.filter_eq_nil_iff]
    intro p hp
    have := (List.mem_filter.mp hp).2
    simp only [decide_eq_true_eq] at this ⊢
    simp [this]
  · rw [if_neg hxy]
    apply List.filter_eq_self.mpr
    intro p hp
    have := (List.mem_filter.mp hp).2
    simp only [decide_eq_true_eq] at this ⊢
    exact this ▸ hxy

theorem find?_eq_of_filter_eq_cons {α : Type} (l : List α) (p : α → Bool) (a : α)
    (t : List α) (h : l.filter p = a :: t) : l.find? p = some a := by
  induction l with
  | nil => simp at h
  | cons q rest ih =>
    by_cases hq : p q
    · rw [List.filter_cons_of_pos hq] at h
      injection h with h1 _
      rw [List.find?_cons_of_pos _ hq, h1]
    · rw [List.filter_cons_of_neg hq] at h
      rw [List.find?_cons_of_neg _ hq]
      exact ih h

theorem filter_name_ne_nil_of_mem (l : List (String × List Val)) (x : String)
    (hx : x ∈ l.map Prod.fst) : l.filter (fun p => decide (p.1 = x)) ≠ [] := by
  intro hnil
  rw [List.filter_eq_nil_iff] at hnil
  obtain ⟨p, hp, hp1⟩ := List.mem_map.mp hx
  exact hnil p hp (by simp [hp1])

theorem dictInsert_keys (d : AttrRec) (k : String) (v : Val) :
    (dictInsert d k v).map Prod.fst =
      if k ∈ d.map Prod.fst then d.map Prod.fst else d.map Prod.fst ++ [k] := by
  simp only [dictInsert]
  split
  · rw [List.map_map]
    apply List.map_congr_left
    intro p _
    by_cases hp : p.1 = k <;> simp [hp]
  · simp

theorem foldl_insert_keys_mem (block : List (String × Val)) (d : AttrRec) (n : String)
    (hall : ∀ p ∈ block, p.1 = n) (hmem : n ∈ d.map Prod.fst) :
    ((block.foldl (fun d p => dictInsert d p.1 p.2) d).map Prod.fst) = d.map Prod.fst := by
  induction block generalizing d with
  | nil => rfl
  | cons p bs ih =>
    rw [List.foldl_cons]
    have hp1 : p.1 = n := hall p (List.mem_cons_self _ _)
    have hk : (dictInsert d p.1 p.2).map Prod.fst = d.map Prod.fst := by
      rw [dictInsert_keys, if_pos (hp1 ▸ hmem)]
    rw [ih _ (fun q hq => hall q (List.mem_cons_of_mem _ hq)) (by rw [hk]; exact hmem)]
    exact hk

theorem foldl_insert_keys_notmem (block : List (String × Val)) (d : AttrRec) (n : String)
    (hall : ∀ p ∈ block, p.1 = n) (hne : block ≠ []) (hmem : n ∉ d.map Prod.fst) :
    ((block.foldl (fun d p => dictInsert d p.1 p.2) d).map Prod.fst) =
      d.map Prod.fst ++ [n] := by
  match block with
  | [] => exact absurd rfl hne
  | p :: bs =>
    rw [List.foldl_cons]
    have hp1 : p.1 = n := hall p (List.mem_cons_self _ _)
    have hk : (dictInsert d p.1 p.2).map Prod.fst = d.map Prod.fst ++ [n] := by
      rw [dictInsert_keys, if_neg (hp1 ▸ hmem), hp1]
    rw [foldl_insert_keys_mem bs _ n (fun q hq => hall q (List.mem_cons_of_mem _ hq))
      (by rw [hk]; exact List.mem_append_right _ (List.mem_singleton.mpr rfl))]
    exact hk

theorem foldl_insert_keys_blocks (names : List String) (f : String → List (String × Val))
    (hnd : names.Nodup) (hne : ∀ n ∈ names, f n ≠ [])
    (hfst : ∀ n ∈ names, ∀ p ∈ f n, p.1 = n) :
    ∀ d : AttrRec, (∀ n ∈ names, n ∉ d.map Prod.fst) →
      (((names.flatMap f).foldl (fun d p => dictInsert d p.1 p.2) d).map Prod.fst) =
        d.map Prod.fst ++ names := by
  induction names with
  | nil =>
    intro d _
    simp
  | cons n ns ih =>
    intro d hd
    rw [List.flatMap_cons, List.foldl_append]
    have h1 := foldl_insert_keys_notmem (f n) d n
      (hfst n (List.mem_cons_self _ _)) (hne n (List.mem_cons_self _ _))
      (hd n (List.mem_cons_self _ _))
    rw [List.nodup_cons] at hnd
    rw [ih hnd.2 (fun x hx => hne x (List.mem_cons_of_mem _ hx))
      (fun x hx => hfst x (List.mem_cons_of_mem _ hx)) _
      (by
        intro x hx
        rw [h1]
        intro hmem
        rcases List.mem_append.mp hmem with hin | hone
        · exact hd x (List.mem_cons_of_mem _ hx) hin
        · exact hnd.1 (List.mem_singleton.mp hone ▸ hx)), h1]
    simp

theorem toDict_keys_blocks (names : List String) (f : String → List (String × Val))
    (hnd : names.Nodup) (hne : ∀ n ∈ names, f n ≠ [])
    (hfst : ∀ n ∈ names, ∀ p ∈ f n, p.1 = n) :
    (toDict (names.flatMap f)).map Prod.fst = names := by
  have h := foldl_insert_keys_blocks names f hnd hne hfst [] (by simp)
  simpa [toDict] using h

theorem setIndexToDict_ok_spec (sel : DataFrame) (i : String) (m : NodeMap)
    (h : setIndexToDict sel (some i) = .ok m) :
    ∃ keycol, sel.cols.filter (fun p => decide (p.1 = i)) = [keycol] ∧
      keycol.2.Nodup ∧
      m = (List.range keycol.2.length).map (fun j => (keycol.2.getD j Val.na,
        toDict ((sel.cols.filter (fun p => decide (p.1 ≠ i))).map
          (fun p => (p.1, p.2.getD j Val.na))))) := by
  simp only [setIndexToDict] at h
  split at h
  · rename_i keycol heq
    split at h
    · rename_i hnd
      injection h with h
      exact ⟨keycol, heq, hnd, h.symm⟩
    · exact Except.noConfusion h
  · exact Except.noConfusion h

theorem flatMap_congr_mem {α β : Type} (l : List α) (f g : α → List β)
    (h : ∀ a ∈ l, f a = g a) : l.flatMap f = l.flatMap g := by
  induction l with
  | nil => rfl
  | cons a t ih =>
    rw [List.flatMap_cons, List.flatMap_cons, h a (List.mem_cons_self _ _),
      ih (fun x hx => h x (List.mem_cons_of_mem _ hx))]

theorem select_setIndex_spec (temp3 : DataFrame) (i : String) (names : List String)
    (sel : DataFrame) (m : NodeMap) (hnames : names.Nodup)
    (hsel : selectCols temp3 (some i :: names.map some) = .ok sel)
    (hm : setIndexToDict sel (some i) = .ok m) :
    i ∉ names ∧
    temp3.cols.filter (fun p => decide (p.1 = i)) = [(i, getCol temp3 i)] ∧
    m.map Prod.fst = getCol temp3 i ∧
    (m.map Prod.fst).Nodup ∧
    ∀ rec ∈ m.map Prod.snd, rec.map Prod.fst = names := by
  obtain ⟨hshape, hmemall⟩ := selectCols_ok_shape temp3 _ sel hsel
  have hmemnames : ∀ n ∈ names, n ∈ columnNames temp3 := by
    intro n hn
    obtain ⟨s, hs1, hs2⟩ := hmemall (some n)
      (List.mem_cons_of_mem _ (List.mem_map_of_mem some hn))
    rwa [(Option.some.injEq _ _).mp hs1]
  have hmemi : i ∈ columnNames temp3 := by
    obtain ⟨s, hs1, hs2⟩ := hmemall (some i) (List.mem_cons_self _ _)
    rwa [(Option.some.injEq _ _).mp hs1]
  have hshape2 : sel.cols = temp3.cols.filter (fun p => decide (p.1 = i)) ++
      names.flatMap (fun n => temp3.cols.filter (fun p => decide (p.1 = n))) := by
    rw [hshape, List.flatMap_cons, List.flatMap_map]
  obtain ⟨keycol, hkey, hknd, hmval⟩ := setIndexToDict_ok_spec sel i m hm
  have hfun : (fun n => (temp3.cols.filter (fun p => decide (p.1 = n))).filter
      (fun p => decide (p.1 = i))) = (fun n =>
        if n = i then temp3.cols.filter (fun p => decide (p.1 = i)) else []) := by
    funext n
    exact filter_name_filter_name temp3.cols n i
  have hfilti : temp3.cols.filter (fun p => decide (p.1 = i)) ++
      names.flatMap (fun n => if n = i
        then temp3.cols.filter (fun p => decide (p.1 = i)) else []) = [keycol] := by
    rw [← hkey, hshape2, List.filter_append, List.filter_flatMap]
    rw [filter_name_filter_name temp3.cols i i, if_pos rfl, hfun]
  have hFi_ne : temp3.cols.filter (fun p => decide (p.1 = i)) ≠ [] :=
    filter_name_ne_nil_of_mem temp3.cols i hmemi
  have hsplit : temp3.cols.filter (fun p => decide (p.1 = i)) = [keycol] ∧
      names.flatMap (fun n => if n = i
        then temp3.cols.filter (fun p => decide (p.1 = i)) else []) = [] := by
    rcases hFi : temp3.cols.filter (fun p => decide (p.1 = i)) with _ | ⟨a, Fi2⟩
    · exact absurd hFi hFi_ne
    · rw [hFi, List.cons_append] at hfilti
      injection hfilti with h1 h2
      obtain ⟨h3, h4⟩ := List.append_eq_nil.mp h2
      refine ⟨by rw [hFi, h3, h1], ?_⟩
      rw [hFi]
      exact h4
  have hinot : i ∉ names := by
    intro hin
    have h0 := (List.flatMap_eq_nil_iff.mp hsplit.2) i hin
    rw [if_pos rfl] at h0
    exact hFi_ne h0
  have hkey1 : keycol.1 = i := by
    have hmem : keycol ∈ temp3.cols.filter (fun p => decide (p.1 = i)) := by
      rw [hsplit.1]
      exact List.mem_singleton.mpr rfl
    simpa using (List.mem_filter.mp hmem).2
  have hkey2 : keycol.2 = getCol temp3 i := by
    have hfind := find?_eq_of_filter_eq_cons temp3.cols
      (fun p => decide (p.1 = i)) keycol [] hsplit.1
    simp [getCol, hfind]
  have hFi_eq : temp3.cols.filter (fun p => decide (p.1 = i)) =
      [(i, getCol temp3 i)] := by
    have hkc : keycol = (i, getCol temp3 i) := by
      rw [← hkey2, ← hkey1]
    rw [hsplit.1, hkc]
  have hrest : sel.cols.filter (fun p => decide (p.1 ≠ i)) =
      names.flatMap (fun n => temp3.cols.filter (fun p => decide (p.1 = n))) := by
    rw [hshape2, List.filter_append, List.filter_flatMap]
    rw [filter_name_filter_ne temp3.cols i i, if_pos rfl, List.nil_append]
    apply flatMap_congr_mem
    intro n hn
    rw [filter_name_filter_ne temp3.cols n i]
    have hni : ¬ (n = i) := by
      intro h
      exact hinot (h ▸ hn)
    rw [if_neg hni]
  have hfst : m.map Prod.fst = keycol.2 := by
    rw [hmval, List.map_map]
    exact (List.map_congr_left (fun j _ => rfl)).trans (map_range_getD keycol.2 Val.na)
  refine ⟨hinot, hFi_eq, by rw [hfst, hkey2], by rw [hfst]; exact hknd, ?_⟩
  · intro rec hrec
    rw [hmval, List.map_map] at hrec
    obtain ⟨j, _, hj⟩ := List.mem_map.mp hrec
    have hrow : ((sel.cols.filter (fun p => decide (p.1 ≠ i))).map
        (fun p => (p.1, p.2.getD j Val.na))) =
        names.flatMap (fun n => (temp3.cols.filter (fun p => decide (p.1 = n))).map
          (fun p => (p.1, p.2.getD j Val.na))) := by
      rw [hrest]
      exact List.map_flatMap _ _ _
    rw [← hj]
    show (toDict _).map Prod.fst = names
    rw [hrow]
    apply toDict_keys_blocks names _ hnames
    · intro n hn
      intro hnil
      rw [List.map_eq_nil_iff] at hnil
      exact filter_name_ne_nil_of_mem temp3.cols n (hmemnames n hn) hnil
    · intro n hn p hp
      obtain ⟨q, hq, hq1⟩ := List.mem_map.mp hp
      have := (List.mem_filter.mp hq).2
      simp only [decide_eq_true_eq] at this
      rw [← hq1]
      exact this

theorem find?_eq_head?_filter {α : Type} (l : List α) (p : α → Bool) :
    l.find? p = (l.filter p).head? := by
  induction l with
  | nil => rfl
  | cons a t ih =>
    by_cases ha : p a
    · rw [List.find?_cons_of_pos _ ha, List.filter_cons_of_pos ha]
      rfl
    · rw [List.find?_cons_of_neg _ ha, List.filter_cons_of_neg ha]
      exact ih

theorem getCol_eq_of_filter_eq (df1 df2 : DataFrame) (x : String)
    (h : df1.cols.filter (fun p => decide (p.1 = x)) =
      df2.cols.filter (fun p => decide (p.1 = x))) :
    getCol df1 x = getCol df2 x := by
  simp only [getCol, find?_eq_head?_filter, h]

theorem filter_old_renameCol (df : DataFrame) (old nw : String) (hne : old ≠ nw) :
    (renameCol df old nw).cols.filter (fun p => decide (p.1 = old)) = [] := by
  rw [List.filter_eq_nil_iff]
  intro p hp
  simp only [decide_eq_true_eq]
  obtain ⟨q, hq, hq1⟩ := List.mem_map.mp hp
  by_cases hq2 : q.1 = old
  · rw [if_pos hq2] at hq1
    rw [← hq1]
    exact Ne.symm hne
  · rw [if_neg hq2] at hq1
    rw [← hq1]
    exact hq2

theorem C8_after_reduce (ndf T3 : DataFrame) (i : String) (names : List String)
    (m : NodeMap) (hnames : names.Nodup)
    (hmatch : (match selectCols T3 (some i :: names.map some) with
        | Except.error e => ((Except.error e : Except TError NodeMap), ndf)
        | Except.ok sel => (setIndexToDict sel (some i), ndf)).1 = .ok m)
    (hfilter : i ∉ names → T3.cols.filter (fun p => decide (p.1 = i)) ≠ [] →
      T3.cols.filter (fun p => decide (p.1 = i)) =
        ndf.cols.filter (fun p => decide (p.1 = i))) :
    m.map Prod.fst = getCol ndf i ∧ (m.map Prod.fst).Nodup ∧
    ∀ rec ∈ m.map Prod.snd, rec.map Prod.fst = names := by
  rcases hsel : selectCols T3 (some i :: names.map some) with e | sel
  · rw [hsel] at hmatch
    exact Except.noConfusion hmatch
  · rw [hsel] at hmatch
    have hok2 : setIndexToDict sel (some i) = .ok m := hmatch
    obtain ⟨hinot, hFi, hfst, hnodup, hrec⟩ :=
      select_setIndex_spec T3 i names sel m hnames hsel hok2
    have hchain := hfilter hinot (by rw [hFi]; exact List.cons_ne_nil _ _)
    have hgc : getCol T3 i = getCol ndf i := getCol_eq_of_filter_eq T3 ndf i hchain
    exact ⟨hfst.trans hgc, hnodup, hrec⟩

/-- C8: whenever `transform_nodes` returns a mapping, the identifier
parameter was supplied, the mapping has exactly one entry per (necessarily
unique) identifier value of the input table's id column, in order, and every
entry's attribute record carries exactly the requested attribute keys
(`label`, `color`, `title` as selected by the supplied options) and no
others. -/
theorem C8_nodes_mapping (ndf : DataFrame) (id label color : Option String)
    (cm : Option ColorMap) (hover : Option String) (m : NodeMap)
    (hok : (transform_nodes ndf id label color cm hover).1 = .ok m) :
    (∃ i, id = some i ∧ m.map Prod.fst = getCol ndf i) ∧
    (m.map Prod.fst).Nodup ∧
    ∀ rec ∈ m.map Prod.snd, rec.map Prod.fst = nodeAttrCols label color cm hover := by
  rcases hchk : checkCols ndf (([id, label, color, hover]).filterMap (fun x => x))
    with e | u
  · rw [transform_nodes_checkCols_error ndf id label color cm hover e hchk] at hok
    exact Except.noConfusion hok
  rcases id with _ | i
  · rcases color with _ | c <;> rcases cm with _ | cmv
    · rw [show (transform_nodes ndf none label none none hover).1 =
          Except.error (TError.keyError none) from by
            simp only [transform_nodes]
            rw [hchk]
            try rfl] at hok
      exact Except.noConfusion hok
    · rw [show (transform_nodes ndf none label none (some cmv) hover).1 =
          Except.error TError.invalidArgumentCombination from by
            simp only [transform_nodes]
            rw [hchk]
            try rfl] at hok
      exact Except.noConfusion hok
    · rw [show (transform_nodes ndf none label (some c) none hover).1 =
          Except.error TError.invalidArgumentCombination from by
            simp only [transform_nodes]
            rw [hchk]
            try rfl] at hok
      exact Except.noConfusion hok
    · rw [show (transform_nodes ndf none label (some c) (some cmv) hover).1 =
          Except.error (TError.keyError none) from by
            simp only [transform_nodes]
            rw [hchk]
            try rfl] at hok
      exact Except.noConfusion hok
  · rcases label with _ | l
    · rcases color with _ | c <;> rcases cm with _ | cmv
      · rcases hover with _ | h
        · have h1 : (transform_nodes ndf (some i) none none none none).1 =
              (match selectCols (ndf) (some i :: (([] : List String) : List String).map some) with
                | Except.error e => ((Except.error e : Except TError NodeMap), ndf)
                | Except.ok sel => (setIndexToDict sel (some i), ndf)).1 := by
            simp only [transform_nodes]
            rw [hchk]
            try rfl
          rw [h1] at hok
          obtain ⟨hfst, hnodup, hrec⟩ := C8_after_reduce ndf (ndf) i ([] : List String) m
            (by decide) hok (by
            intro hinot hne
            exact rfl)
          exact ⟨⟨i, rfl, hfst⟩, hnodup, hrec⟩
        · have h1 : (transform_nodes ndf (some i) none none none (some h)).1 =
              (match selectCols (renameCol ndf h "title") (some i :: (["title"] : List String).map some) with
                | Except.error e => ((Except.error e : Except TError NodeMap), ndf)
                | Except.ok sel => (setIndexToDict sel (some i), ndf)).1 := by
            simp only [transform_nodes]
            rw [hchk]
            try rfl
          rw [h1] at hok
          obtain ⟨hfst, hnodup, hrec⟩ := C8_after_reduce ndf (renameCol ndf h "title") i ["title"] m
            (by decide) hok (by
            intro hinot hne
            have hit : i ≠ "title" := fun he => hinot (by rw [he]; simp)
            by_cases hhi : h = i
            · exfalso
              apply hne
              rw [hhi]
              exact filter_old_renameCol (ndf) i "title" hit
            · rw [filter_name_renameCol_ne (ndf) h "title" i (fun he => hhi he.symm) hit])
          exact ⟨⟨i, rfl, hfst⟩, hnodup, hrec⟩
      · rw [show (transform_nodes ndf (some i) none none (some cmv) hover).1 =
            Except.error TError.invalidArgumentCombination from by
              simp only [transform_nodes]
              rw [hchk]
              try rfl] at hok
        exact Except.noConfusion hok
      · rw [show (transform_nodes ndf (some i) none (some c) none hover).1 =
            Except.error TError.invalidArgumentCombination from by
              simp only [transform_nodes]
              rw [hchk]
              try rfl] at hok
        exact Except.noConfusion hok
      · rcases hover with _ | h
        · have h1 : (transform_nodes ndf (some i) none (some c) (some cmv) none).1 =
              (match selectCols (setCol (ndf) "color" ((getCol (ndf) c).map (mapLookup cmv))) (some i :: (["color"] : List String).map some) with
                | Except.error e => ((Except.error e : Except TError NodeMap), ndf)
                | Except.ok sel => (setIndexToDict sel (some i), ndf)).1 := by
            simp only [transform_nodes]
            rw [hchk]
            try rfl
          rw [h1] at hok
          obtain ⟨hfst, hnodup, hrec⟩ := C8_after_reduce ndf (setCol (ndf) "color" ((getCol (ndf) c).map (mapLookup cmv))) i ["color"] m
            (by decide) hok (by
            intro hinot hne
            have hic : i ≠ "color" := fun he => hinot (by rw [he]; simp)
            exact filter_name_setCol_ne (ndf) "color" i _ hic)
          exact ⟨⟨i, rfl, hfst⟩, hnodup, hrec⟩
        · have h1 : (transform_nodes ndf (some i) none (some c) (some cmv) (some h)).1 =
              (match selectCols (renameCol (setCol (ndf) "color" ((getCol (ndf) c).map (mapLookup cmv))) h "title") (some i :: (["color", "title"] : List String).map some) with
                | Except.error e => ((Except.error e : Except TError NodeMap), ndf)
                | Except.ok sel => (setIndexToDict sel (some i), ndf)).1 := by
            simp only [transform_nodes]
            rw [hchk]
            try rfl
          rw [h1] at hok
          obtain ⟨hfst, hnodup, hrec⟩ := C8_after_reduce ndf (renameCol (setCol (ndf) "color" ((getCol (ndf) c).map (mapLookup cmv))) h "title") i ["color", "title"] m
            (by decide) hok (by
            intro hinot hne
            have hic : i ≠ "color" := fun he => hinot (by rw [he]; simp)
            have hit : i ≠ "title" := fun he => hinot (by rw [he]; simp)
            by_cases hhi : h = i
            · exfalso
              apply hne
              rw [hhi]
              exact filter_old_renameCol (setCol (ndf) "color" ((getCol (ndf) c).map (mapLookup cmv))) i "title" hit
            · rw [filter_name_renameCol_ne (setCol (ndf) "color" ((getCol (ndf) c).map (mapLookup cmv))) h "title" i (fun he => hhi he.symm) hit]
              exact filter_name_setCol_ne (ndf) "color" i _ hic)
          exact ⟨⟨i, rfl, hfst⟩, hnodup, hrec⟩
    · rcases color with _ | c <;> rcases cm with _ | cmv
      · rcases hover with _ | h
        · have h1 : (transform_nodes ndf (some i) (some l) none none none).1 =
              (match selectCols (setCol ndf "label" ((getCol ndf l).map astypeStr)) (some i :: (["label"] : List String).map some) with
                | Except.error e => ((Except.error e : Except TError NodeMap), ndf)
                | Except.ok sel => (setIndexToDict sel (some i), ndf)).1 := by
            simp only [transform_nodes]
            rw [hchk]
            try rfl
          rw [h1] at hok
          obtain ⟨hfst, hnodup, hrec⟩ := C8_after_reduce ndf (setCol ndf "label" ((getCol ndf l).map astypeStr)) i ["label"] m
            (by decide) hok (by
            intro hinot hne
            have hil : i ≠ "label" := fun he => hinot (by rw [he]; simp)
            exact filter_name_setCol_ne ndf "label" i _ hil)
          exact ⟨⟨i, rfl, hfst⟩, hnodup, hrec⟩
        · have h1 : (transform_nodes ndf (some i) (some l) none none (some h)).1 =
              (match selectCols (renameCol (setCol ndf "label" ((getCol ndf l).map astypeStr)) h "title") (some i :: (["label", "title"] : List String).map some) with
                | Except.error e => ((Except.error e : Except TError NodeMap), ndf)
                | Except.ok sel => (setIndexToDict sel (some i), ndf)).1 := by
            simp only [transform_nodes]
            rw [hchk]
            try rfl
          rw [h1] at hok
          obtain ⟨hfst, hnodup, hrec⟩ := C8_after_reduce ndf (renameCol (setCol ndf "label" ((getCol ndf l).map astypeStr)) h "title") i ["label", "title"] m
            (by decide) hok (by
            intro hinot hne
            have hil : i ≠ "label" := fun he => hinot (by rw [he]; simp)
            have hit : i ≠ "title" := fun he => hinot (by rw [he]; simp)
            by_cases hhi : h = i
            · exfalso
              apply hne
              rw [hhi]
              exact filter_old_renameCol (setCol ndf "label" ((getCol ndf l).map astypeStr)) i "title" hit
            · rw [filter_name_renameCol_ne (setCol ndf "label" ((getCol ndf l).map astypeStr)) h "title" i (fun he => hhi he.symm) hit]
              exact filter_name_setCol_ne ndf "label" i _ hil)
          exact ⟨⟨i, rfl, hfst⟩, hnodup, hrec⟩
      · rw [show (transform_nodes ndf (some i) (some l) none (some cmv) hover).1 =
            Except.error TError.invalidArgumentCombination from by
              simp only [transform_nodes]
              rw [hchk]
              try rfl] at hok
        exact Except.noConfusion hok
      · rw [show (transform_nodes ndf (some i) (some l) (some c) none hover).1 =
            Except.error TError.invalidArgumentCombination from by
              simp only [transform_nodes]
              rw [hchk]
              try rfl] at hok
        exact Except.noConfusion hok
      · rcases hover with _ | h
        · have h1 : (transform_nodes ndf (some i) (some l) (some c) (some cmv) none).1 =
              (match selectCols (setCol (setCol ndf "label" ((getCol ndf l).map astypeStr)) "color" ((getCol (setCol ndf "label" ((getCol ndf l).map astypeStr)) c).map (mapLookup cmv))) (some i :: (["label", "color"] : List String).map some) with
                | Except.error e => ((Except.error e : Except TError NodeMap), ndf)
                | Except.ok sel => (setIndexToDict sel (some i), ndf)).1 := by
            simp only [transform_nodes]
            rw [hchk]
            try rfl
          rw [h1] at hok
          obtain ⟨hfst, hnodup, hrec⟩ := C8_after_reduce ndf (setCol (setCol ndf "label" ((getCol ndf l).map astypeStr)) "color" ((getCol (setCol ndf "label" ((getCol ndf l).map astypeStr)) c).map (mapLookup cmv))) i ["label", "color"] m
            (by decide) hok (by
            intro hinot hne
            have hil : i ≠ "label" := fun he => hinot (by rw [he]; simp)
            have hic : i ≠ "color" := fun he => hinot (by rw [he]; simp)
            rw [filter_name_setCol_ne (setCol ndf "label" ((getCol ndf l).map astypeStr)) "color" i _ hic]
            exact filter_name_setCol_ne ndf "label" i _ hil)
          exact ⟨⟨i, rfl, hfst⟩, hnodup, hrec⟩
        · have h1 : (transform_nodes ndf (some i) (some l) (some c) (some cmv) (some h)).1 =
              (match selectCols (renameCol (setCol (setCol ndf "label" ((getCol ndf l).map astypeStr)) "color" ((getCol (setCol ndf "label" ((getCol ndf l).map astypeStr)) c).map (mapLookup cmv))) h "title") (some i :: (["label", "color", "title"] : List String).map some) with
                | Except.error e => ((Except.error e : Except TError NodeMap), ndf)
                | Except.ok sel => (setIndexToDict sel (some i), ndf)).1 := by
            simp only [transform_nodes]
            rw [hchk]
            try rfl
          rw [h1] at hok
          obtain ⟨hfst, hnodup, hrec⟩ := C8_after_reduce ndf (renameCol (setCol (setCol ndf "label" ((getCol ndf l).map astypeStr)) "color" ((getCol (setCol ndf "label" ((getCol ndf l).map astypeStr)) c).map (mapLookup cmv))) h "title") i ["label", "color", "title"] m
            (by decide) hok (by
            intro hinot hne
            have hil : i ≠ "label" := fun he => hinot (by rw [he]; simp)
            have hic : i ≠ "color" := fun he => hinot (by rw [he]; simp)
            have hit : i ≠ "title" := fun he => hinot (by rw [he]; simp)
            by_cases hhi : h = i
            · exfalso
              apply hne
              rw [hhi]
              exact filter_old_renameCol (setCol (setCol ndf "label" ((getCol ndf l).map astypeStr)) "color" ((getCol (setCol ndf "label" ((getCol ndf l).map astypeStr)) c).map (mapLookup cmv))) i "title" hit
            · rw [filter_name_renameCol_ne (setCol (setCol ndf "label" ((getCol ndf l).map astypeStr)) "color" ((getCol (setCol ndf "label" ((getCol ndf l).map astypeStr)) c).map (mapLookup cmv))) h "title" i (fun he => hhi he.symm) hit]
              rw [filter_name_setCol_ne (setCol ndf "label" ((getCol ndf l).map astypeStr)) "color" i _ hic]
              exact filter_name_setCol_ne ndf "label" i _ hil)
          exact ⟨⟨i, rfl, hfst⟩, hnodup, hrec⟩

theorem C8_witness :
    (∃ i, (some "i" : Option String) = some i ∧
      (([(Val.str "A", [("label", Val.str "x")]),
         (Val.str "B", [("label", Val.str "q")])] : NodeMap).map Prod.fst =
        getCol ⟨[("i", [Val.str "A", Val.str "B"]),
          ("cat", [Val.str "x", Val.str "q"])]⟩ i)) ∧
    (([(Val.str "A", [("label", Val.str "x")]),
       (Val.str "B", [("label", Val.str "q")])] : NodeMap).map Prod.fst).Nodup ∧
    ∀ rec ∈ ([(Val.str "A", [("label", Val.str "x")]),
        (Val.str "B", [("label", Val.str "q")])] : NodeMap).map Prod.snd,
      rec.map Prod.fst = nodeAttrCols (some "cat") none none none :=
  C8_nodes_mapping ⟨[("i", [Val.str "A", Val.str "B"]),
      ("cat", [Val.str "x", Val.str "q"])]⟩
    (some "i") (some "cat") none none none
    [(Val.str "A", [("label", Val.str "x")]), (Val.str "B", [("label", Val.str "q")])]
    (by decide)
